import Mathlib

/-! # LM3554 flash/torch LED driver: register access, initialisation, torch and strobe
control

A shallow embedding of `drivers/leds/leds-lm3554.c`.

* Bytes (`uint8_t`) are natural numbers reduced `% 256` wherever the C code converts to
  `uint8_t`; the `int` cache fields are integers obtained through `toInt32`.
* The I2C core (`i2c_master_send`, `i2c_master_recv`) and `msleep_interruptible` are outside
  the driver.  The transport behind them is an arbitrary deterministic machine over a state
  type `σ`; every call is appended to a trace so that the order of bus operations can be
  stated.
* `pr_err`/`pr_info` only print to the kernel log and are left out.
-/

namespace LM3554

/-! ## Constants of the driver -/

def LM3554_ALLOWED_R_BYTES : Nat := 1
def LM3554_ALLOWED_W_BYTES : Nat := 2
def LM3554_MAX_RW_RETRIES : Nat := 5
def LM3554_I2C_RETRY_DELAY : Nat := 10
def LM3554_TORCH_STEP : Nat := 32
def LM3554_STROBE_STEP : Nat := 16

def LM3554_TORCH_BRIGHTNESS : Nat := 0xA0
def LM3554_FLASH_BRIGHTNESS : Nat := 0xB0
def LM3554_FLASH_DURATION : Nat := 0xC0
def LM3554_FLAG_REG : Nat := 0xD0
def LM3554_CONFIG_REG_1 : Nat := 0xE0
def LM3554_CONFIG_REG_2 : Nat := 0xF0
def LM3554_VIN_MONITOR : Nat := 0x80
def LM3554_GPIO_REG : Nat := 0x20

/-- Errno values of the kernel headers (`asm-generic/errno-base.h`, `errno.h`). -/
def EIO : Int := 5
def EINVAL : Int := 22
def EUNATCH : Int := 49

/-- Conversion of an `unsigned long` to `int` as gcc performs it: reduction modulo `2^32`
into the two's complement range. -/
def toInt32 (n : Nat) : Int :=
  if n % 2 ^ 32 < 2 ^ 31 then ((n % 2 ^ 32 : Nat) : Int) else ((n % 2 ^ 32 : Nat) : Int) - 2 ^ 32

/-! ## The bus -/

/-- One call into the I2C core or the sleep helper, with the value it returned. -/
inductive BusOp where
  | send (buf : List Nat) (count : Nat) (ret : Int)
  | recv (count : Nat) (ret : Int)
  | msleep (ms : Nat)
  deriving DecidableEq, Repr

/-- The transport behind `struct i2c_client`: `send` gets the bytes and the count and answers
with the value `i2c_master_send` returns; `recv` gets the count and answers with the value
`i2c_master_recv` returns together with the byte it stored in the caller's buffer, if any. -/
structure i2c_client (σ : Type) where
  send : σ → List Nat → Nat → Int × σ
  recv : σ → Nat → Int × Option Nat × σ

/-- The state of the transport together with the trace of calls made so far (oldest first). -/
structure Bus (σ : Type) where
  chip : σ
  log : List BusOp

/-- Outcome of a call that returns an `int` and may have used the bus. -/
structure WriteResult (σ : Type) where
  err : Int
  bus : Bus σ

/-- Outcome of a call that returns an `int` and has a one byte buffer as out-parameter. -/
structure ReadResult (σ : Type) where
  err : Int
  val : Nat
  bus : Bus σ

def i2c_master_send {σ : Type} (client : i2c_client σ) (buf : List Nat) (count : Nat)
    (b : Bus σ) : WriteResult σ :=
  let r := client.send b.chip buf count
  { err := r.1, bus := { chip := r.2, log := b.log ++ [BusOp.send buf count r.1] } }

def i2c_master_recv {σ : Type} (client : i2c_client σ) (val : Nat) (count : Nat)
    (b : Bus σ) : ReadResult σ :=
  let r := client.recv b.chip count
  { err := r.1,
    val := (match r.2.1 with
      | some x => x % 256
      | none => val),
    bus := { chip := r.2.2, log := b.log ++ [BusOp.recv count r.1] } }

def msleep_interruptible {σ : Type} (ms : Nat) (b : Bus σ) : Bus σ :=
  { b with log := b.log ++ [BusOp.msleep ms] }

/-! ## Driver data -/

/-- The platform data of `linux/leds-lm3554.h`: the presence flags and the seven default
register values.  The values are converted to `uint8_t` where they are passed to
`lm3554_write_reg`. -/
structure lm3554_platform_data where
  flags : Nat
  torch_brightness_def : Nat
  flash_brightness_def : Nat
  flash_duration_def : Nat
  config_reg_1_def : Nat
  config_reg_2_def : Nat
  vin_monitor_def : Nat
  gpio_reg_def : Nat

/-- The driver data `struct lm3554_data`; `client = none` is the NULL client.  The two
`led_classdev` members carry no state the register layer uses. -/
structure lm3554_data (σ : Type) where
  client : Option (i2c_client σ)
  pdata : lm3554_platform_data
  strobe_brightness : Int
  torch_brightness : Int

/-! ## Register access -/

/-- The `do ... while` loop of `lm3554_read_reg`, entered with loop counter `i`.  The first
argument bounds the number of iterations; `lm3554_read_reg` supplies
`LM3554_MAX_RW_RETRIES`, which the loop condition never exceeds. -/
def lm3554_read_loop {σ : Type} (client : i2c_client σ) (value : List Nat) :
    Nat → Nat → Nat → Bus σ → ReadResult σ
  | 0, _, val, b => { err := -1, val := val, bus := b }
  | fuel + 1, i, val, b =>
    let s := i2c_master_send client value 1 b
    let r : ReadResult σ :=
      if s.err = 1 then i2c_master_recv client val 1 s.bus
      else { err := s.err, val := val, bus := s.bus }
    let b' := if r.err ≠ 1 then msleep_interruptible LM3554_I2C_RETRY_DELAY r.bus else r.bus
    if r.err ≠ 1 ∧ i + 1 < LM3554_MAX_RW_RETRIES then
      lm3554_read_loop client value fuel (i + 1) r.val b'
    else { err := r.err, val := r.val, bus := b' }

/-- Embedding of `lm3554_read_reg`. The out-parameter `val` is `none` for a NULL pointer and
`some v` for a buffer that currently holds `v`; the result carries the buffer afterwards. -/
def lm3554_read_reg {σ : Type} (torch_data : lm3554_data σ) (reg : Nat) (val : Option Nat)
    (b : Bus σ) : Int × Option Nat × Bus σ :=
  match val with
  | none => (- EINVAL, none, b)
  | some v =>
    match torch_data.client with
    | none => (- EUNATCH, some v, b)
    | some client =>
      let r := lm3554_read_loop client [(reg % 256) &&& 0xFF] LM3554_MAX_RW_RETRIES 0 v b
      if r.err ≠ 1 then (r.err, some r.val, r.bus) else (0, some r.val, r.bus)

/-- The `do ... while` loop of `lm3554_write_reg`, entered with loop counter `i`. -/
def lm3554_write_loop {σ : Type} (client : i2c_client σ) (buf : List Nat) :
    Nat → Nat → Bus σ → WriteResult σ
  | 0, _, b => { err := -1, bus := b }
  | fuel + 1, i, b =>
    let s := i2c_master_send client buf 2 b
    let b' := if s.err ≠ 2 then msleep_interruptible LM3554_I2C_RETRY_DELAY s.bus else s.bus
    if s.err ≠ 2 ∧ i + 1 < LM3554_MAX_RW_RETRIES then
      lm3554_write_loop client buf fuel (i + 1) b'
    else { err := s.err, bus := b' }

/-- Embedding of `lm3554_write_reg`. -/
def lm3554_write_reg {σ : Type} (torch_data : lm3554_data σ) (reg : Nat) (val : Nat)
    (b : Bus σ) : WriteResult σ :=
  match torch_data.client with
  | none => { err := - EUNATCH, bus := b }
  | some client =>
    let r := lm3554_write_loop client [reg % 256, val % 256] LM3554_MAX_RW_RETRIES 0 b
    if r.err ≠ 2 then { err := r.err, bus := r.bus } else { err := 0, bus := r.bus }

/-- Embedding of `lm3554_init_registers`: the `||` chain stops at the first write that
returns a non-zero value. -/
def lm3554_init_registers {σ : Type} (torch_data : lm3554_data σ) (b : Bus σ) : WriteResult σ :=
  let w1 := lm3554_write_reg torch_data LM3554_TORCH_BRIGHTNESS
    torch_data.pdata.torch_brightness_def b
  if w1.err ≠ 0 then { err := - EIO, bus := w1.bus } else
  let w2 := lm3554_write_reg torch_data LM3554_FLASH_BRIGHTNESS
    torch_data.pdata.flash_brightness_def w1.bus
  if w2.err ≠ 0 then { err := - EIO, bus := w2.bus } else
  let w3 := lm3554_write_reg torch_data LM3554_FLASH_DURATION
    torch_data.pdata.flash_duration_def w2.bus
  if w3.err ≠ 0 then { err := - EIO, bus := w3.bus } else
  let w4 := lm3554_write_reg torch_data LM3554_CONFIG_REG_1
    torch_data.pdata.config_reg_1_def w3.bus
  if w4.err ≠ 0 then { err := - EIO, bus := w4.bus } else
  let w5 := lm3554_write_reg torch_data LM3554_CONFIG_REG_2
    torch_data.pdata.config_reg_2_def w4.bus
  if w5.err ≠ 0 then { err := - EIO, bus := w5.bus } else
  let w6 := lm3554_write_reg torch_data LM3554_VIN_MONITOR
    torch_data.pdata.vin_monitor_def w5.bus
  if w6.err ≠ 0 then { err := - EIO, bus := w6.bus } else
  let w7 := lm3554_write_reg torch_data LM3554_GPIO_REG
    torch_data.pdata.gpio_reg_def w6.bus
  if w7.err ≠ 0 then { err := - EIO, bus := w7.bus } else
  { err := 0, bus := w7.bus }

/-! ## Torch and strobe attributes -/

/-- Outcome of a `store` callback: the returned `ssize_t`, the driver data and the bus. -/
structure StoreResult (σ : Type) where
  ret : Int
  data : lm3554_data σ
  bus : Bus σ

/-- Outcome of a `show` callback: the returned `ssize_t`, the text printed into `buf` and
the bus. -/
structure ShowResult (σ : Type) where
  ret : Int
  text : String
  bus : Bus σ

/-- Embedding of `lm3554_torch_show`; `sizeof_buf` is `sizeof(char *)` on the target. -/
def lm3554_torch_show {σ : Type} (sizeof_buf : Nat) (torch_data : lm3554_data σ)
    (b : Bus σ) : ShowResult σ :=
  { ret := sizeof_buf, text := toString torch_data.torch_brightness ++ "\n", bus := b }

/-- Embedding of `lm3554_torch_store`.  `buf` is the outcome of
`strict_strtoul(buf, 10, &torch_val)`: `none` when it reports an error, `some n` when it
stores `n`.  `val` is the indeterminate initial content of the local `uint8_t val`.
`(torch_val / 32) << 3` cannot overflow an `unsigned long`, so only the conversion back to
`uint8_t` reduces. -/
def lm3554_torch_store {σ : Type} (torch_data : lm3554_data σ) (buf : Option Nat) (val : Nat)
    (b : Bus σ) : StoreResult σ :=
  match buf with
  | none => { ret := -1, data := torch_data, bus := b }
  | some torch_val =>
    let r := lm3554_read_reg torch_data LM3554_TORCH_BRIGHTNESS (some val) b
    if r.1 ≠ 0 then { ret := r.1, data := torch_data, bus := r.2.2 } else
    let val1 := (r.2.1.getD val) &&& 0xc4
    let val2 :=
      if torch_val ≠ 0 then ((val1 ||| ((torch_val / LM3554_TORCH_STEP) <<< 3)) % 256) ||| 0x02
      else val1
    let w1 := lm3554_write_reg torch_data LM3554_CONFIG_REG_2 0x08 r.2.2
    if w1.err ≠ 0 then { ret := - EIO, data := torch_data, bus := w1.bus } else
    let w2 := lm3554_write_reg torch_data LM3554_TORCH_BRIGHTNESS val2 w1.bus
    if w2.err ≠ 0 then { ret := - EIO, data := torch_data, bus := w2.bus } else
    { ret := w2.err, data := { torch_data with torch_brightness := toInt32 torch_val },
      bus := w2.bus }

/-- Embedding of `lm3554_strobe_show`. -/
def lm3554_strobe_show {σ : Type} (sizeof_buf : Nat) (torch_data : lm3554_data σ)
    (b : Bus σ) : ShowResult σ :=
  { ret := sizeof_buf, text := toString torch_data.strobe_brightness ++ "\n", bus := b }

/-- Embedding of `lm3554_strobe_store`.  `buf` is the outcome of
`strict_strtoul(buf, 10, &strobe_val)`; `val` and `strobe_brightness` are the indeterminate
initial contents of the two `uint8_t` locals. -/
def lm3554_strobe_store {σ : Type} (torch_data : lm3554_data σ) (buf : Option Nat) (val : Nat)
    (strobe_brightness : Nat) (b : Bus σ) : StoreResult σ :=
  match buf with
  | none => { ret := -1, data := torch_data, bus := b }
  | some strobe_val =>
    let r1 := lm3554_read_reg torch_data LM3554_CONFIG_REG_1 (some val) b
    if r1.1 ≠ 0 then { ret := - EIO, data := torch_data, bus := r1.2.2 } else
    let w1 := lm3554_write_reg torch_data LM3554_TORCH_BRIGHTNESS
      torch_data.pdata.torch_brightness_def r1.2.2
    if w1.err ≠ 0 then { ret := - EIO, data := torch_data, bus := w1.bus } else
    let r2 := lm3554_read_reg torch_data LM3554_FLASH_BRIGHTNESS (some strobe_brightness) w1.bus
    if r2.1 ≠ 0 then { ret := - EIO, data := torch_data, bus := r2.2.2 } else
    let sb1 := (r2.2.1.getD strobe_brightness) &&& 0x83
    let sb2 := (sb1 ||| ((strobe_val / LM3554_STROBE_STEP) <<< 3)) % 256
    let w2 := lm3554_write_reg torch_data LM3554_FLASH_BRIGHTNESS sb2 r2.2.2
    if w2.err ≠ 0 then { ret := - EIO, data := torch_data, bus := w2.bus } else
    let torch_data' := { torch_data with strobe_brightness := toInt32 strobe_val }
    let val1 := (r1.2.1.getD val) ||| 0x04
    let val2 := if strobe_val ≠ 0 then val1 &&& 0xfb else val1
    let w3 := lm3554_write_reg torch_data' LM3554_CONFIG_REG_1 val2 w2.bus
    { ret := 0, data := torch_data', bus := w3.bus }

/-- Outcome of a callback that returns nothing: the driver data and the bus afterwards. -/
structure VoidResult (σ : Type) where
  data : lm3554_data σ
  bus : Bus σ

/-- Embedding of `lm3554_flash_brightness_set`: it reads the flag register and discards the
value; both paths only return.  `err_flags` is the indeterminate initial content of the
local. -/
def lm3554_flash_brightness_set {σ : Type} (torch_data : lm3554_data σ) (_value : Nat)
    (err_flags : Nat) (b : Bus σ) : VoidResult σ :=
  let r := lm3554_read_reg torch_data LM3554_FLAG_REG (some err_flags) b
  if r.1 ≠ 0 then { data := torch_data, bus := r.2.2 } else
  { data := torch_data, bus := r.2.2 }

/-- Embedding of `lm3554_strobe_err_show`.  `buf` is the content of the output buffer before
the call and `text` of the result its content afterwards: `sprintf` is reached only when
both register operations returned 0.  `err_flags` is the indeterminate initial content of
the local; `sizeof_buf` is `sizeof(char *)` on the target. -/
def lm3554_strobe_err_show {σ : Type} (sizeof_buf : Nat) (torch_data : lm3554_data σ)
    (buf : String) (err_flags : Nat) (b : Bus σ) : ShowResult σ :=
  let r := lm3554_read_reg torch_data LM3554_FLAG_REG (some err_flags) b
  if r.1 ≠ 0 then { ret := - EIO, text := buf, bus := r.2.2 } else
  let w := lm3554_write_reg torch_data LM3554_FLAG_REG 0x00 r.2.2
  if w.err ≠ 0 then { ret := - EIO, text := buf, bus := w.bus } else
  { ret := sizeof_buf, text := toString ((r.2.1.getD err_flags) &&& 0xbf) ++ "\n",
    bus := w.bus }

/-- Embedding of `lm3554_torch_brightness_set`.  `value` is the `enum led_brightness`
argument, `val` the indeterminate initial content of the local `uint8_t val`. -/
def lm3554_torch_brightness_set {σ : Type} (torch_data : lm3554_data σ) (value : Nat)
    (val : Nat) (b : Bus σ) : VoidResult σ :=
  let torch_val := value
  let r := lm3554_read_reg torch_data LM3554_TORCH_BRIGHTNESS (some val) b
  if r.1 ≠ 0 then { data := torch_data, bus := r.2.2 } else
  let val1 := (r.2.1.getD val) &&& 0xc4
  let val2 :=
    if torch_val ≠ 0 then ((val1 ||| ((torch_val / LM3554_TORCH_STEP) <<< 3)) % 256) ||| 0x02
    else val1
  let w1 := lm3554_write_reg torch_data LM3554_CONFIG_REG_2 0x08 r.2.2
  if w1.err ≠ 0 then { data := torch_data, bus := w1.bus } else
  let w2 := lm3554_write_reg torch_data LM3554_TORCH_BRIGHTNESS val2 w1.bus
  if w2.err ≠ 0 then { data := torch_data, bus := w2.bus } else
  { data := torch_data, bus := w2.bus }

/-! ## Simulated transports -/

/-- A simulated chip: a register map, the register selected by the last one byte address
frame, and a schedule of injected faults (one entry per transport call, `true` = this call
fails; an exhausted schedule means no further fault). -/
structure SimChip where
  regs : Nat → Nat
  ptr : Nat
  faults : List Bool

/-- The value a failing simulated call returns (`-EREMOTEIO`). -/
def simFault : Int := -121

/-- The simulated transport: a two byte frame `(address, value)` is stored in the register
map, a one byte frame selects a register, a receive answers with the byte stored in the
selected register.  A call scheduled to fail returns `simFault` and has no effect. -/
def simClient : i2c_client SimChip where
  send := fun s buf count =>
    match s.faults with
    | true :: fs => (simFault, { s with faults := fs })
    | fs =>
      match buf with
      | [a] => (1, { s with ptr := a, faults := fs.tail })
      | [a, v] => (2, { s with regs := Function.update s.regs a v, faults := fs.tail })
      | _ => ((count : Int), { s with faults := fs.tail })
  recv := fun s count =>
    match s.faults with
    | true :: fs => (simFault, none, { s with faults := fs })
    | fs => ((count : Int), some (s.regs s.ptr), { s with faults := fs.tail })

/-- A transport that reports a transfer of zero bytes on every call. -/
def zeroClient : i2c_client Unit where
  send := fun s _ _ => (0, s)
  recv := fun s _ => (0, none, s)

/-- The eight register addresses of the chip. -/
def validRegs : List Nat :=
  [LM3554_TORCH_BRIGHTNESS, LM3554_FLASH_BRIGHTNESS, LM3554_FLASH_DURATION, LM3554_FLAG_REG,
   LM3554_CONFIG_REG_1, LM3554_CONFIG_REG_2, LM3554_VIN_MONITOR, LM3554_GPIO_REG]

/-- Driver data bound to the simulated transport. -/
def simData (pdata : lm3554_platform_data) (strobe torch : Int) : lm3554_data SimChip :=
  { client := some simClient, pdata := pdata, strobe_brightness := strobe,
    torch_brightness := torch }

/-- Sample platform data and a sample register map, used to instantiate statements. -/
def samplePdata : lm3554_platform_data :=
  { flags := 1, torch_brightness_def := 0x50, flash_brightness_def := 0x78,
    flash_duration_def := 0x2f, config_reg_1_def := 0x4a, config_reg_2_def := 0xf0,
    vin_monitor_def := 0x07, gpio_reg_def := 0x80 }

def sampleRegs : Nat → Nat := fun a => if a = LM3554_TORCH_BRIGHTNESS then 0xC5 else 0x04

/-! ## Trace shapes used in the statements -/

/-- The trace of write attempts that came back short: each is the two byte send with the
value it returned, followed by the retry pause. -/
def failedWrites (buf : List Nat) : List Int → List BusOp
  | [] => []
  | e :: es => BusOp.send buf 2 e :: BusOp.msleep LM3554_I2C_RETRY_DELAY :: failedWrites buf es

/-- A read attempt that did not transfer one byte each way: either the address send came
back with `e`, or the send was complete and the receive came back with `e`. -/
inductive ReadFailure where
  | sendShort (e : Int)
  | recvShort (e : Int)
  deriving DecidableEq, Repr

/-- The value a failed read attempt leaves in `err`. -/
def ReadFailure.ret : ReadFailure → Int
  | .sendShort e => e
  | .recvShort e => e

/-- The trace of failed read attempts, each followed by the retry pause. -/
def failedReads (value : List Nat) : List ReadFailure → List BusOp
  | [] => []
  | .sendShort e :: fs =>
    BusOp.send value 1 e :: BusOp.msleep LM3554_I2C_RETRY_DELAY :: failedReads value fs
  | .recvShort e :: fs =>
    BusOp.send value 1 1 :: BusOp.recv 1 e :: BusOp.msleep LM3554_I2C_RETRY_DELAY
      :: failedReads value fs

/-- Number of `i2c_master_send` calls in a trace: the number of attempts. -/
def sendCount : List BusOp → Nat
  | [] => 0
  | BusOp.send _ _ _ :: ops => sendCount ops + 1
  | _ :: ops => sendCount ops

/-- One pass through the body of the read loop up to the pause: the address send and, when
it reported one byte, the receive. -/
def read_attempt {σ : Type} (client : i2c_client σ) (value : List Nat) (val : Nat)
    (b : Bus σ) : ReadResult σ :=
  if (i2c_master_send client value 1 b).err = 1 then
    i2c_master_recv client val 1 (i2c_master_send client value 1 b).bus
  else { err := (i2c_master_send client value 1 b).err, val := val,
         bus := (i2c_master_send client value 1 b).bus }

/-- The seven `(register, default)` pairs in the order `lm3554_init_registers` is specified
to write them. -/
def initSequence (pdata : lm3554_platform_data) : List (Nat × Nat) :=
  [(LM3554_TORCH_BRIGHTNESS, pdata.torch_brightness_def),
   (LM3554_FLASH_BRIGHTNESS, pdata.flash_brightness_def),
   (LM3554_FLASH_DURATION, pdata.flash_duration_def),
   (LM3554_CONFIG_REG_1, pdata.config_reg_1_def),
   (LM3554_CONFIG_REG_2, pdata.config_reg_2_def),
   (LM3554_VIN_MONITOR, pdata.vin_monitor_def),
   (LM3554_GPIO_REG, pdata.gpio_reg_def)]

/-- Specification of an ordered, short-circuiting sequence of register writes: the writes
are issued one after the other and the first one that returns an error ends the sequence.
The result is the number of writes that returned 0 before that, and the bus afterwards. -/
def writeInOrder {σ : Type} (torch_data : lm3554_data σ) :
    List (Nat × Nat) → Bus σ → Nat × Bus σ
  | [], b => (0, b)
  | p :: rest, b =>
    if (lm3554_write_reg torch_data p.1 p.2 b).err ≠ 0 then
      (0, (lm3554_write_reg torch_data p.1 p.2 b).bus)
    else
      ((writeInOrder torch_data rest (lm3554_write_reg torch_data p.1 p.2 b).bus).1 + 1,
       (writeInOrder torch_data rest (lm3554_write_reg torch_data p.1 p.2 b).bus).2)

/-- A trace that belongs to one register write: nothing but sends of the two byte frame
`(reg, val)` and retry pauses. -/
def isWriteTrace (p : Nat × Nat) (seg : List BusOp) : Prop :=
  ∀ op ∈ seg, op = BusOp.msleep LM3554_I2C_RETRY_DELAY ∨
    ∃ e : Int, op = BusOp.send [p.1 % 256, p.2 % 256] 2 e

/-- The address bytes of the frames sent in a trace, in order. -/
def sentAddresses : List BusOp → List Nat
  | [] => []
  | BusOp.send buf _ _ :: ops => buf.head?.toList ++ sentAddresses ops
  | _ :: ops => sentAddresses ops

/-- A fault schedule for the simulated chip under which the first three transport calls
succeed and the next five fail. -/
def fourthWriteFails : List Bool := [false, false, false, true, true, true, true, true]

/-- The byte the torch encoding is specified to write, from the previous register value `r`
and the requested level. -/
def torchByte (r level : Nat) : Nat :=
  if level = 0 then r &&& 0xC4 else (r &&& 0xC4) ||| ((level / 32) <<< 3) ||| 0x02

/-- The value `lm3554_torch_store` and `lm3554_torch_brightness_set` compute for the
torch-brightness register from the byte read (`val`) and the requested level. -/
def torch_encode (val torch_val : Nat) : Nat :=
  if torch_val ≠ 0 then
    (((val &&& 0xc4) ||| ((torch_val / LM3554_TORCH_STEP) <<< 3)) % 256) ||| 0x02
  else val &&& 0xc4

/-- First step of `lm3554_torch_store`: the read of the torch-brightness register. -/
def torchStepRead {σ : Type} (td : lm3554_data σ) (val : Nat) (b : Bus σ) :
    Int × Option Nat × Bus σ :=
  lm3554_read_reg td LM3554_TORCH_BRIGHTNESS (some val) b

/-- Second step of `lm3554_torch_store`: the write of `0x08` to config-2. -/
def torchStepConfig {σ : Type} (td : lm3554_data σ) (val : Nat) (b : Bus σ) : WriteResult σ :=
  lm3554_write_reg td LM3554_CONFIG_REG_2 0x08 (torchStepRead td val b).2.2

/-- Third step of `lm3554_torch_store`: the write of the encoded byte to torch-brightness. -/
def torchStepWrite {σ : Type} (td : lm3554_data σ) (torch_val val : Nat) (b : Bus σ) :
    WriteResult σ :=
  lm3554_write_reg td LM3554_TORCH_BRIGHTNESS
    (torch_encode ((torchStepRead td val b).2.1.getD val) torch_val)
    (torchStepConfig td val b).bus

/-- A trace that belongs to one register read: nothing but one byte sends of the register
address, one byte receives and retry pauses. -/
def isReadTrace (reg : Nat) (seg : List BusOp) : Prop :=
  ∀ op ∈ seg, op = BusOp.msleep LM3554_I2C_RETRY_DELAY ∨
    (∃ e : Int, op = BusOp.send [(reg % 256) &&& 0xFF] 1 e) ∨ ∃ e : Int, op = BusOp.recv 1 e

/-- A fault schedule for the simulated chip under which the first two transport calls
succeed and the next five fail. -/
def thirdCallOnFails : List Bool := [false, false, true, true, true, true, true]

/-- The value `lm3554_strobe_store` computes for the flash-brightness register from the byte
read and the requested level. -/
def flash_encode (strobe_brightness strobe_val : Nat) : Nat :=
  ((strobe_brightness &&& 0x83) ||| ((strobe_val / LM3554_STROBE_STEP) <<< 3)) % 256

/-- The value `lm3554_strobe_store` computes for the config-1 register from the byte read
in its first step and the requested level. -/
def config1_encode (val strobe_val : Nat) : Nat :=
  if strobe_val ≠ 0 then (val ||| 0x04) &&& 0xfb else val ||| 0x04

/-- Step 1 of `lm3554_strobe_store`: the read of config-1. -/
def strobeStepReadConfig {σ : Type} (td : lm3554_data σ) (val : Nat) (b : Bus σ) :
    Int × Option Nat × Bus σ :=
  lm3554_read_reg td LM3554_CONFIG_REG_1 (some val) b

/-- Step 2 of `lm3554_strobe_store`: the write of the torch-brightness default. -/
def strobeStepTorchDefault {σ : Type} (td : lm3554_data σ) (val : Nat) (b : Bus σ) :
    WriteResult σ :=
  lm3554_write_reg td LM3554_TORCH_BRIGHTNESS td.pdata.torch_brightness_def
    (strobeStepReadConfig td val b).2.2

/-- Step 3 of `lm3554_strobe_store`: the read of flash-brightness. -/
def strobeStepReadFlash {σ : Type} (td : lm3554_data σ) (val sb : Nat) (b : Bus σ) :
    Int × Option Nat × Bus σ :=
  lm3554_read_reg td LM3554_FLASH_BRIGHTNESS (some sb) (strobeStepTorchDefault td val b).bus

/-- Steps 4 and 5 of `lm3554_strobe_store`: the write of the encoded flash-brightness. -/
def strobeStepWriteFlash {σ : Type} (td : lm3554_data σ) (strobe_val val sb : Nat)
    (b : Bus σ) : WriteResult σ :=
  lm3554_write_reg td LM3554_FLASH_BRIGHTNESS
    (flash_encode ((strobeStepReadFlash td val sb b).2.1.getD sb) strobe_val)
    (strobeStepReadFlash td val sb b).2.2

/-- The last step of `lm3554_strobe_store`: the write of config-1, whose result is dropped. -/
def strobeStepWriteConfig {σ : Type} (td : lm3554_data σ) (strobe_val val sb : Nat)
    (b : Bus σ) : WriteResult σ :=
  lm3554_write_reg td LM3554_CONFIG_REG_1
    (config1_encode ((strobeStepReadConfig td val b).2.1.getD val) strobe_val)
    (strobeStepWriteFlash td strobe_val val sb b).bus

/-- The flash-brightness byte for level 16 as the code computes it: bits 7, 1 and 0 of the
previous value `r` together with brightness field 1. -/
def flashByte16 (r : Nat) : Nat := (r &&& 0x83) ||| 0x08

/-- The config-1 byte as specified: bit `0x04` set for level 0, clear for any other level. -/
def config1Byte (c level : Nat) : Nat :=
  if level = 0 then c ||| 0x04 else c &&& 0xFB

/-- A fault schedule for the simulated chip under which the first six transport calls
succeed and the next five fail. -/
def seventhCallOnFails : List Bool :=
  [false, false, false, false, false, false, true, true, true, true, true]

/-- First step of `lm3554_strobe_err_show`: the read of the flag register. -/
def errStepRead {σ : Type} (td : lm3554_data σ) (err_flags : Nat) (b : Bus σ) :
    Int × Option Nat × Bus σ :=
  lm3554_read_reg td LM3554_FLAG_REG (some err_flags) b

/-- Second step of `lm3554_strobe_err_show`: the write of `0x00` to the flag register. -/
def errStepClear {σ : Type} (td : lm3554_data σ) (err_flags : Nat) (b : Bus σ) :
    WriteResult σ :=
  lm3554_write_reg td LM3554_FLAG_REG 0x00 (errStepRead td err_flags b).2.2

/-- A fault schedule for the simulated chip under which every one of the first five
transport calls fails. -/
def firstFiveFail : List Bool := [true, true, true, true, true]

/-- Platform data whose torch-brightness default is the byte `0xC6`. -/
def stalePdata : lm3554_platform_data :=
  { samplePdata with torch_brightness_def := 0xC6 }

/-- A register map that holds `0x04` everywhere. -/
def lowRegs : Nat → Nat := fun _ => 0x04

/-- A bus operation of the register protocol: the retry pause, a one byte receive, a one
byte send of one of the eight register addresses, or a two byte send of one of the eight
register addresses followed by a byte. -/
def isRegisterOp (op : BusOp) : Prop :=
  op = BusOp.msleep LM3554_I2C_RETRY_DELAY ∨
  (∃ e : Int, op = BusOp.recv 1 e) ∨
  (∃ (a : Nat) (e : Int), a ∈ validRegs ∧ op = BusOp.send [a] 1 e) ∨
  (∃ (a v : Nat) (e : Int), a ∈ validRegs ∧ v < 256 ∧ op = BusOp.send [a, v] 2 e)

/-- The bus `b'` is the bus `b` after some operations of the register protocol and nothing
else. -/
def onlyRegisterOps {σ : Type} (b b' : Bus σ) : Prop :=
  ∃ ops : List BusOp, b'.log = b.log ++ ops ∧ ∀ op ∈ ops, isRegisterOp op

/-- Driver data bound to the transport that reports zero bytes on every call. -/
def zeroData : lm3554_data Unit :=
  { client := some zeroClient, pdata := samplePdata, strobe_brightness := 0,
    torch_brightness := 0 }

/-! ## Lemmas on the retry loops -/

section Generic
variable {σ : Type}

theorem send_log (client : i2c_client σ) (buf : List Nat) (count : Nat) (b : Bus σ) :
    (i2c_master_send client buf count b).bus.log
      = b.log ++ [BusOp.send buf count (i2c_master_send client buf count b).err] := rfl

theorem recv_log (client : i2c_client σ) (val count : Nat) (b : Bus σ) :
    (i2c_master_recv client val count b).bus.log
      = b.log ++ [BusOp.recv count (i2c_master_recv client val count b).err] := rfl

theorem msleep_log (ms : Nat) (b : Bus σ) :
    (msleep_interruptible ms b).log = b.log ++ [BusOp.msleep ms] := rfl

theorem msleep_chip (ms : Nat) (b : Bus σ) : (msleep_interruptible ms b).chip = b.chip := rfl

theorem write_loop_done (client : i2c_client σ) (buf : List Nat) (fuel i : Nat) (b : Bus σ)
    (h : (i2c_master_send client buf 2 b).err = 2) :
    lm3554_write_loop client buf (fuel + 1) i b
      = { err := 2, bus := (i2c_master_send client buf 2 b).bus } := by
  simp [lm3554_write_loop, h]

theorem write_loop_last (client : i2c_client σ) (buf : List Nat) (fuel i : Nat) (b : Bus σ)
    (h : (i2c_master_send client buf 2 b).err ≠ 2) (hi : ¬ i + 1 < LM3554_MAX_RW_RETRIES) :
    lm3554_write_loop client buf (fuel + 1) i b
      = { err := (i2c_master_send client buf 2 b).err,
          bus := msleep_interruptible LM3554_I2C_RETRY_DELAY
            (i2c_master_send client buf 2 b).bus } := by
  simp [lm3554_write_loop, h, hi]

theorem write_loop_retry (client : i2c_client σ) (buf : List Nat) (fuel i : Nat) (b : Bus σ)
    (h : (i2c_master_send client buf 2 b).err ≠ 2) (hi : i + 1 < LM3554_MAX_RW_RETRIES) :
    lm3554_write_loop client buf (fuel + 1) i b
      = lm3554_write_loop client buf fuel (i + 1)
          (msleep_interruptible LM3554_I2C_RETRY_DELAY (i2c_master_send client buf 2 b).bus) := by
  simp [lm3554_write_loop, h, hi]

theorem write_loop_trace (client : i2c_client σ) (buf : List Nat) :
    ∀ (fuel i : Nat) (b : Bus σ), 0 < fuel → i + fuel = LM3554_MAX_RW_RETRIES →
      ∃ rets : List Int, (∀ e ∈ rets, e ≠ 2) ∧
        ((rets.length < fuel ∧ (lm3554_write_loop client buf fuel i b).err = 2 ∧
            (lm3554_write_loop client buf fuel i b).bus.log
              = b.log ++ failedWrites buf rets ++ [BusOp.send buf 2 2]) ∨
         (rets.length = fuel ∧ (lm3554_write_loop client buf fuel i b).err ≠ 2 ∧
            rets.getLast? = some (lm3554_write_loop client buf fuel i b).err ∧
            (lm3554_write_loop client buf fuel i b).bus.log = b.log ++ failedWrites buf rets)) := by
  intro fuel
  induction fuel with
  | zero => intro i b h; omega
  | succ n ih =>
    intro i b _ hi
    by_cases hs : (i2c_master_send client buf 2 b).err = 2
    · refine ⟨[], by simp, Or.inl ⟨by simp, ?_, ?_⟩⟩
      · rw [write_loop_done client buf n i b hs]
      · rw [write_loop_done client buf n i b hs]
        simp [send_log, hs, failedWrites]
    · by_cases hn : n = 0
      · subst hn
        have hi5 : ¬ (i + 1 < LM3554_MAX_RW_RETRIES) := by omega
        refine ⟨[(i2c_master_send client buf 2 b).err], by simpa using hs,
          Or.inr ⟨by simp, ?_, ?_, ?_⟩⟩
        · rw [write_loop_last client buf 0 i b hs hi5]; exact hs
        · rw [write_loop_last client buf 0 i b hs hi5]; simp
        · rw [write_loop_last client buf 0 i b hs hi5]
          simp [send_log, msleep_log, failedWrites]
      · have hi5 : i + 1 < LM3554_MAX_RW_RETRIES := by omega
        obtain ⟨rets, hr, h⟩ := ih (i + 1)
          (msleep_interruptible LM3554_I2C_RETRY_DELAY (i2c_master_send client buf 2 b).bus)
          (by omega) (by omega)
        refine ⟨(i2c_master_send client buf 2 b).err :: rets, ?_, ?_⟩
        · intro e he
          rcases List.mem_cons.1 he with rfl | he
          · exact hs
          · exact hr e he
        · rw [write_loop_retry client buf n i b hs hi5]
          rcases h with ⟨h1, h2, h3⟩ | ⟨h1, h2, h3, h4⟩
          · left
            refine ⟨by simp; omega, h2, ?_⟩
            rw [h3]; simp [send_log, msleep_log, failedWrites]
          · right
            refine ⟨by simp; omega, h2, ?_, ?_⟩
            · rw [← h3]
              cases rets with
              | nil => simp at h1; omega
              | cons g gs => simp [List.getLast?_cons_cons]
            · rw [h4]; simp [send_log, msleep_log, failedWrites]
end Generic

section Generic
variable {σ : Type}

theorem read_loop_done (client : i2c_client σ) (value : List Nat) (fuel i val : Nat) (b : Bus σ)
    (h : (read_attempt client value val b).err = 1) :
    lm3554_read_loop client value (fuel + 1) i val b
      = { err := 1, val := (read_attempt client value val b).val,
          bus := (read_attempt client value val b).bus } := by
  unfold read_attempt at h ⊢
  simp only [lm3554_read_loop]
  simp [h]

theorem read_loop_last (client : i2c_client σ) (value : List Nat) (fuel i val : Nat) (b : Bus σ)
    (h : (read_attempt client value val b).err ≠ 1) (hi : ¬ i + 1 < LM3554_MAX_RW_RETRIES) :
    lm3554_read_loop client value (fuel + 1) i val b
      = { err := (read_attempt client value val b).err,
          val := (read_attempt client value val b).val,
          bus := msleep_interruptible LM3554_I2C_RETRY_DELAY
            (read_attempt client value val b).bus } := by
  unfold read_attempt at h ⊢
  simp only [lm3554_read_loop]
  simp [h, hi]

theorem read_loop_retry (client : i2c_client σ) (value : List Nat) (fuel i val : Nat) (b : Bus σ)
    (h : (read_attempt client value val b).err ≠ 1) (hi : i + 1 < LM3554_MAX_RW_RETRIES) :
    lm3554_read_loop client value (fuel + 1) i val b
      = lm3554_read_loop client value fuel (i + 1) (read_attempt client value val b).val
          (msleep_interruptible LM3554_I2C_RETRY_DELAY
            (read_attempt client value val b).bus) := by
  unfold read_attempt at h ⊢
  simp only [lm3554_read_loop]
  simp [h, hi]

/-- The bus operations of one read attempt. -/
theorem read_attempt_log (client : i2c_client σ) (value : List Nat) (val : Nat) (b : Bus σ) :
    ((read_attempt client value val b).err = 1 ∧
      (read_attempt client value val b).bus.log
        = b.log ++ [BusOp.send value 1 1, BusOp.recv 1 1]) ∨
    (∃ f : ReadFailure, f.ret ≠ 1 ∧ f.ret = (read_attempt client value val b).err ∧
      (read_attempt client value val b).bus.log ++ [BusOp.msleep LM3554_I2C_RETRY_DELAY]
        = b.log ++ failedReads value [f]) := by
  by_cases hs : (i2c_master_send client value 1 b).err = 1
  · by_cases hr : (i2c_master_recv client val 1 (i2c_master_send client value 1 b).bus).err = 1
    · left
      simp [read_attempt, hs, hr, recv_log, send_log]
    · right
      refine ⟨.recvShort (i2c_master_recv client val 1 (i2c_master_send client value 1 b).bus).err,
        hr, ?_, ?_⟩
      · simp [read_attempt, hs, ReadFailure.ret]
      · simp [read_attempt, hs, recv_log, send_log, failedReads]
  · right
    refine ⟨.sendShort (i2c_master_send client value 1 b).err, hs, ?_, ?_⟩
    · simp [read_attempt, hs, ReadFailure.ret]
    · simp [read_attempt, hs, send_log, failedReads]

theorem failedReads_append (value : List Nat) (fs gs : List ReadFailure) :
    failedReads value (fs ++ gs) = failedReads value fs ++ failedReads value gs := by
  induction fs with
  | nil => simp [failedReads]
  | cons f fs ih => cases f <;> simp [failedReads, ih]

theorem read_loop_trace (client : i2c_client σ) (value : List Nat) :
    ∀ (fuel i val : Nat) (b : Bus σ), 0 < fuel → i + fuel = LM3554_MAX_RW_RETRIES →
      ∃ fs : List ReadFailure, (∀ f ∈ fs, f.ret ≠ 1) ∧
        ((fs.length < fuel ∧ (lm3554_read_loop client value fuel i val b).err = 1 ∧
            (lm3554_read_loop client value fuel i val b).bus.log
              = b.log ++ failedReads value fs ++ [BusOp.send value 1 1, BusOp.recv 1 1]) ∨
         (fs.length = fuel ∧ (lm3554_read_loop client value fuel i val b).err ≠ 1 ∧
            (fs.map ReadFailure.ret).getLast?
              = some (lm3554_read_loop client value fuel i val b).err ∧
            (lm3554_read_loop client value fuel i val b).bus.log
              = b.log ++ failedReads value fs)) := by
  intro fuel
  induction fuel with
  | zero => intro i val b h; omega
  | succ n ih =>
    intro i val b _ hi
    rcases read_attempt_log client value val b with ⟨hs, hl⟩ | ⟨f, hf, hfe, hl⟩
    · refine ⟨[], by simp, Or.inl ⟨by simp, ?_, ?_⟩⟩
      · rw [read_loop_done client value n i val b hs]
      · rw [read_loop_done client value n i val b hs]
        simp [hl, failedReads]
    · have hs : (read_attempt client value val b).err ≠ 1 := hfe ▸ hf
      by_cases hn : n = 0
      · subst hn
        have hi5 : ¬ (i + 1 < LM3554_MAX_RW_RETRIES) := by omega
        refine ⟨[f], by simpa using hf, Or.inr ⟨by simp, ?_, ?_, ?_⟩⟩
        · rw [read_loop_last client value 0 i val b hs hi5]; exact hs
        · rw [read_loop_last client value 0 i val b hs hi5]; simp [hfe]
        · rw [read_loop_last client value 0 i val b hs hi5]
          simpa [msleep_log] using hl
      · have hi5 : i + 1 < LM3554_MAX_RW_RETRIES := by omega
        obtain ⟨fs, hr, h⟩ := ih (i + 1) (read_attempt client value val b).val
          (msleep_interruptible LM3554_I2C_RETRY_DELAY (read_attempt client value val b).bus)
          (by omega) (by omega)
        have hl' : (msleep_interruptible LM3554_I2C_RETRY_DELAY
            (read_attempt client value val b).bus).log = b.log ++ failedReads value [f] := by
          simpa [msleep_log] using hl
        refine ⟨f :: fs, ?_, ?_⟩
        · intro e he
          rcases List.mem_cons.1 he with rfl | he
          · exact hf
          · exact hr e he
        · rw [read_loop_retry client value n i val b hs hi5]
          have hcons : failedReads value (f :: fs)
              = failedReads value [f] ++ failedReads value fs := by
            rw [← failedReads_append]; rfl
          rcases h with ⟨h1, h2, h3⟩ | ⟨h1, h2, h3, h4⟩
          · left
            refine ⟨by simp; omega, h2, ?_⟩
            rw [h3, hl', hcons]; simp
          · right
            refine ⟨by simp; omega, h2, ?_, ?_⟩
            · have hne : fs ≠ [] := by
                intro h0; subst h0; simp at h1; omega
              rw [← h3]
              cases fs with
              | nil => exact absurd rfl hne
              | cons g gs => simp [List.getLast?_cons_cons]
            · rw [h4, hl', hcons]; simp
end Generic

/-- The iteration bound of the write loop is never the reason it stops: once the bound
covers the retries that are left, a larger bound gives the same result. -/
theorem write_loop_fuel {σ : Type} (client : i2c_client σ) (buf : List Nat) :
    ∀ (fuel i : Nat) (b : Bus σ), 0 < fuel → LM3554_MAX_RW_RETRIES ≤ i + fuel →
      lm3554_write_loop client buf (fuel + 1) i b = lm3554_write_loop client buf fuel i b := by
  intro fuel
  induction fuel with
  | zero => intro i b h; omega
  | succ n ih =>
    intro i b _ hi
    by_cases hs : (i2c_master_send client buf 2 b).err = 2
    · rw [write_loop_done _ _ _ _ _ hs, write_loop_done _ _ _ _ _ hs]
    · by_cases h5 : i + 1 < LM3554_MAX_RW_RETRIES
      · rw [write_loop_retry _ _ _ _ _ hs h5, write_loop_retry _ _ _ _ _ hs h5]
        exact ih (i + 1) _ (by omega) (by omega)
      · rw [write_loop_last _ _ _ _ _ hs h5, write_loop_last _ _ _ _ _ hs h5]

/-- The iteration bound of the read loop is never the reason it stops. -/
theorem read_loop_fuel {σ : Type} (client : i2c_client σ) (value : List Nat) :
    ∀ (fuel i val : Nat) (b : Bus σ), 0 < fuel → LM3554_MAX_RW_RETRIES ≤ i + fuel →
      lm3554_read_loop client value (fuel + 1) i val b
        = lm3554_read_loop client value fuel i val b := by
  intro fuel
  induction fuel with
  | zero => intro i val b h; omega
  | succ n ih =>
    intro i val b _ hi
    by_cases hs : (read_attempt client value val b).err = 1
    · rw [read_loop_done _ _ _ _ _ _ hs, read_loop_done _ _ _ _ _ _ hs]
    · by_cases h5 : i + 1 < LM3554_MAX_RW_RETRIES
      · rw [read_loop_retry _ _ _ _ _ _ hs h5, read_loop_retry _ _ _ _ _ _ hs h5]
        exact ih (i + 1) _ _ (by omega) (by omega)
      · rw [read_loop_last _ _ _ _ _ _ hs h5, read_loop_last _ _ _ _ _ _ hs h5]

/-! ## Lemmas on the simulated chip -/

section Sim

theorem sim_send2 (a v : Nat) (b : Bus SimChip) :
    ((i2c_master_send simClient [a, v] 2 b).err = 2 ∧
      (i2c_master_send simClient [a, v] 2 b).bus.chip.regs = Function.update b.chip.regs a v ∧
      (i2c_master_send simClient [a, v] 2 b).bus.chip.ptr = b.chip.ptr) ∨
    ((i2c_master_send simClient [a, v] 2 b).err = simFault ∧
      (i2c_master_send simClient [a, v] 2 b).bus.chip.regs = b.chip.regs ∧
      (i2c_master_send simClient [a, v] 2 b).bus.chip.ptr = b.chip.ptr) := by
  rcases b with ⟨⟨regs, ptr, faults⟩, log⟩
  rcases faults with _ | ⟨f, fs⟩
  · left; simp [i2c_master_send, simClient]
  · cases f
    · left; simp [i2c_master_send, simClient]
    · right; simp [i2c_master_send, simClient]

theorem sim_send2_ok (a v : Nat) (regs : Nat → Nat) (ptr : Nat) (log : List BusOp) :
    i2c_master_send simClient [a, v] 2 ⟨⟨regs, ptr, []⟩, log⟩
      = { err := 2, bus := ⟨⟨Function.update regs a v, ptr, []⟩,
            log ++ [BusOp.send [a, v] 2 2]⟩ } := by
  simp [i2c_master_send, simClient]

theorem sim_write_loop (a v : Nat) :
    ∀ (fuel i : Nat) (b : Bus SimChip),
      (lm3554_write_loop simClient [a, v] fuel i b).bus.chip.ptr = b.chip.ptr ∧
      (((lm3554_write_loop simClient [a, v] fuel i b).err = 2 ∧
        (lm3554_write_loop simClient [a, v] fuel i b).bus.chip.regs
          = Function.update b.chip.regs a v) ∨
       ((lm3554_write_loop simClient [a, v] fuel i b).err ≠ 2 ∧
        (lm3554_write_loop simClient [a, v] fuel i b).err ≠ 0 ∧
        (lm3554_write_loop simClient [a, v] fuel i b).bus.chip.regs = b.chip.regs)) := by
  intro fuel
  induction fuel with
  | zero => intro i b; simp [lm3554_write_loop]
  | succ n ih =>
    intro i b
    rcases sim_send2 a v b with ⟨h1, h2, h3⟩ | ⟨h1, h2, h3⟩
    · rw [write_loop_done simClient [a, v] n i b h1]
      exact ⟨h3, Or.inl ⟨rfl, h2⟩⟩
    · have hs : (i2c_master_send simClient [a, v] 2 b).err ≠ 2 := by rw [h1]; decide
      by_cases hi : i + 1 < LM3554_MAX_RW_RETRIES
      · rw [write_loop_retry simClient [a, v] n i b hs hi]
        have := ih (i + 1) (msleep_interruptible LM3554_I2C_RETRY_DELAY
          (i2c_master_send simClient [a, v] 2 b).bus)
        simp only [msleep_chip, h2, h3] at this
        exact this
      · rw [write_loop_last simClient [a, v] n i b hs hi]
        refine ⟨by simpa [msleep_chip] using h3, Or.inr ⟨hs, ?_, by simpa [msleep_chip] using h2⟩⟩
        show (i2c_master_send simClient [a, v] 2 b).err ≠ 0
        rw [h1]; decide

/-- On the simulated chip a register write either reports success and stores the byte, or
reports an error and leaves the register map as it was. -/
theorem sim_write_reg (td : lm3554_data SimChip) (h : td.client = some simClient)
    (reg val : Nat) (b : Bus SimChip) :
    (lm3554_write_reg td reg val b).bus.chip.ptr = b.chip.ptr ∧
    (((lm3554_write_reg td reg val b).err = 0 ∧
      (lm3554_write_reg td reg val b).bus.chip.regs
        = Function.update b.chip.regs (reg % 256) (val % 256)) ∨
     ((lm3554_write_reg td reg val b).err ≠ 0 ∧
      (lm3554_write_reg td reg val b).bus.chip.regs = b.chip.regs)) := by
  have hl := sim_write_loop (reg % 256) (val % 256) LM3554_MAX_RW_RETRIES 0 b
  unfold lm3554_write_reg
  rw [h]
  rcases hl with ⟨hp, ⟨h1, h2⟩ | ⟨h1, h2, h3⟩⟩
  · simp [h1, h2, hp]
  · simp [h1, h2, h3, hp]

theorem sim_write_reg_ok (td : lm3554_data SimChip) (h : td.client = some simClient)
    (reg val : Nat) (regs : Nat → Nat) (ptr : Nat) (log : List BusOp) :
    lm3554_write_reg td reg val ⟨⟨regs, ptr, []⟩, log⟩
      = { err := 0, bus := ⟨⟨Function.update regs (reg % 256) (val % 256), ptr, []⟩,
            log ++ [BusOp.send [reg % 256, val % 256] 2 2]⟩ } := by
  unfold lm3554_write_reg
  rw [h]
  have : LM3554_MAX_RW_RETRIES = 4 + 1 := rfl
  simp only [this]
  rw [write_loop_done _ _ _ _ _ (by rw [sim_send2_ok])]
  simp [sim_send2_ok]

theorem sim_read_attempt (a val : Nat) (b : Bus SimChip) :
    (read_attempt simClient [a] val b).bus.chip.regs = b.chip.regs ∧
    (((read_attempt simClient [a] val b).err = 1 ∧
      (read_attempt simClient [a] val b).val = b.chip.regs a % 256) ∨
     ((read_attempt simClient [a] val b).err = simFault ∧
      (read_attempt simClient [a] val b).val = val)) := by
  rcases b with ⟨⟨regs, ptr, faults⟩, log⟩
  rcases faults with _ | ⟨f, fs⟩
  · simp [read_attempt, i2c_master_send, i2c_master_recv, simClient]
  · cases f
    · rcases fs with _ | ⟨g, gs⟩
      · simp [read_attempt, i2c_master_send, i2c_master_recv, simClient]
      · cases g <;> simp [read_attempt, i2c_master_send, i2c_master_recv, simClient]
    · simp [read_attempt, i2c_master_send, i2c_master_recv, simClient, simFault]

theorem sim_read_attempt_ok (a val : Nat) (regs : Nat → Nat) (ptr : Nat) (log : List BusOp) :
    read_attempt simClient [a] val ⟨⟨regs, ptr, []⟩, log⟩
      = { err := 1, val := regs a % 256,
          bus := ⟨⟨regs, a, []⟩, log ++ [BusOp.send [a] 1 1, BusOp.recv 1 1]⟩ } := by
  simp [read_attempt, i2c_master_send, i2c_master_recv, simClient]

theorem sim_read_loop (a : Nat) :
    ∀ (fuel i val : Nat) (b : Bus SimChip),
      (lm3554_read_loop simClient [a] fuel i val b).bus.chip.regs = b.chip.regs ∧
      ((lm3554_read_loop simClient [a] fuel i val b).err = 1 →
        (lm3554_read_loop simClient [a] fuel i val b).val = b.chip.regs a % 256) ∧
      ((lm3554_read_loop simClient [a] fuel i val b).err ≠ 1 →
        (lm3554_read_loop simClient [a] fuel i val b).err ≠ 0) := by
  intro fuel
  induction fuel with
  | zero => intro i val b; simp [lm3554_read_loop]
  | succ n ih =>
    intro i val b
    rcases sim_read_attempt a val b with ⟨hr, ⟨h1, h2⟩ | ⟨h1, h2⟩⟩
    · rw [read_loop_done simClient [a] n i val b h1]
      exact ⟨hr, fun _ => h2, fun h => absurd rfl h⟩
    · have hs : (read_attempt simClient [a] val b).err ≠ 1 := by rw [h1]; decide
      by_cases hi : i + 1 < LM3554_MAX_RW_RETRIES
      · rw [read_loop_retry simClient [a] n i val b hs hi]
        have := ih (i + 1) (read_attempt simClient [a] val b).val
          (msleep_interruptible LM3554_I2C_RETRY_DELAY (read_attempt simClient [a] val b).bus)
        simp only [msleep_chip, hr] at this
        exact this
      · rw [read_loop_last simClient [a] n i val b hs hi]
        refine ⟨by simpa [msleep_chip] using hr, fun h => absurd h hs, fun _ => ?_⟩
        show (read_attempt simClient [a] val b).err ≠ 0
        rw [h1]; decide

/-- On the simulated chip a register read never changes the register map, and when it
reports success the buffer holds the byte stored in the addressed register. -/
theorem sim_read_reg (td : lm3554_data SimChip) (h : td.client = some simClient)
    (reg v : Nat) (b : Bus SimChip) :
    (lm3554_read_reg td reg (some v) b).2.2.chip.regs = b.chip.regs ∧
    ((lm3554_read_reg td reg (some v) b).1 = 0 →
      (lm3554_read_reg td reg (some v) b).2.1
        = some (b.chip.regs ((reg % 256) &&& 0xFF) % 256)) := by
  have hl := sim_read_loop ((reg % 256) &&& 0xFF) LM3554_MAX_RW_RETRIES 0 v b
  unfold lm3554_read_reg
  simp only [h]
  rcases hl with ⟨hr, h1, h2⟩
  by_cases he : (lm3554_read_loop simClient [(reg % 256) &&& 0xFF] LM3554_MAX_RW_RETRIES 0 v b).err = 1
  · simp [he, hr, h1 he]
  · simp [he, hr, h2 he]

theorem sim_read_reg_ok (td : lm3554_data SimChip) (h : td.client = some simClient)
    (reg v : Nat) (regs : Nat → Nat) (ptr : Nat) (log : List BusOp) :
    lm3554_read_reg td reg (some v) ⟨⟨regs, ptr, []⟩, log⟩
      = (0, some (regs ((reg % 256) &&& 0xFF) % 256),
          ⟨⟨regs, (reg % 256) &&& 0xFF, []⟩,
            log ++ [BusOp.send [(reg % 256) &&& 0xFF] 1 1, BusOp.recv 1 1]⟩) := by
  unfold lm3554_read_reg
  simp only [h]
  have : LM3554_MAX_RW_RETRIES = 4 + 1 := rfl
  simp only [this]
  rw [read_loop_done _ _ _ _ _ _ (by rw [sim_read_attempt_ok])]
  simp [sim_read_attempt_ok]

end Sim


theorem sendCount_append (xs ys : List BusOp) :
    sendCount (xs ++ ys) = sendCount xs + sendCount ys := by
  induction xs with
  | nil => simp [sendCount]
  | cons x xs ih => cases x <;> simp [sendCount, ih]; omega

theorem sendCount_failedWrites (buf : List Nat) (rets : List Int) :
    sendCount (failedWrites buf rets) = rets.length := by
  induction rets with
  | nil => rfl
  | cons e es ih => simp [failedWrites, sendCount, ih]

theorem sendCount_failedReads (value : List Nat) (fs : List ReadFailure) :
    sendCount (failedReads value fs) = fs.length := by
  induction fs with
  | nil => rfl
  | cons f fs ih => cases f <;> simp [failedReads, sendCount, ih]

/-! ## The claims -/

/-- C1: on the simulated register-map transport (no injected fault), for each of the eight
valid register addresses `a` and every byte `v`, `lm3554_write_reg a v` returns 0 and a
following `lm3554_read_reg a` returns 0 and delivers exactly `v`. -/
theorem C1_write_then_read_round_trip (pdata : lm3554_platform_data) (sb tb : Int)
    (a v v0 : Nat) (regs : Nat → Nat) (ptr : Nat) (log : List BusOp)
    (_ha : a ∈ validRegs) (hv : v < 256) :
    (lm3554_write_reg (simData pdata sb tb) a v ⟨⟨regs, ptr, []⟩, log⟩).err = 0 ∧
    (lm3554_read_reg (simData pdata sb tb) a (some v0)
      (lm3554_write_reg (simData pdata sb tb) a v ⟨⟨regs, ptr, []⟩, log⟩).bus).1 = 0 ∧
    (lm3554_read_reg (simData pdata sb tb) a (some v0)
      (lm3554_write_reg (simData pdata sb tb) a v ⟨⟨regs, ptr, []⟩, log⟩).bus).2.1 = some v := by
  have hc : (simData pdata sb tb).client = some simClient := rfl
  have ha' : (a % 256) &&& 0xFF = a % 256 := by
    have := Nat.and_pow_two_sub_one_eq_mod (a % 256) 8
    simpa using this
  rw [sim_write_reg_ok _ hc, sim_read_reg_ok _ hc]
  refine ⟨rfl, rfl, ?_⟩
  show some (Function.update regs (a % 256) (v % 256) ((a % 256) &&& 0xFF) % 256) = some v
  rw [ha', Function.update_same, Nat.mod_mod, Nat.mod_eq_of_lt hv]

theorem C1_witness :
    LM3554_FLAG_REG ∈ validRegs ∧ 0x5A < 256 ∧
    (lm3554_write_reg (simData samplePdata 0 0) LM3554_FLAG_REG 0x5A
      ⟨⟨sampleRegs, 0, []⟩, []⟩).err = 0 ∧
    (lm3554_read_reg (simData samplePdata 0 0) LM3554_FLAG_REG (some 0)
      (lm3554_write_reg (simData samplePdata 0 0) LM3554_FLAG_REG 0x5A
        ⟨⟨sampleRegs, 0, []⟩, []⟩).bus).1 = 0 ∧
    (lm3554_read_reg (simData samplePdata 0 0) LM3554_FLAG_REG (some 0)
      (lm3554_write_reg (simData samplePdata 0 0) LM3554_FLAG_REG 0x5A
        ⟨⟨sampleRegs, 0, []⟩, []⟩).bus).2.1 = some 0x5A :=
  ⟨by decide, by decide,
    C1_write_then_read_round_trip samplePdata 0 0 LM3554_FLAG_REG 0x5A 0 sampleRegs 0 []
      (by decide) (by decide)⟩

/-- C2: with a transport bound, whatever the transport answers, the trace `lm3554_write_reg`
adds consists of `k` short two byte sends, each followed by the 10 ms pause, and then either
one complete send with nothing after it (`k < 5`, so at most 5 attempts, result 0) or nothing
(`k = 5`: exactly 5 attempts, result the last short count).  The trace `lm3554_read_reg` adds
consists of `k` failed attempts (a short one byte send, or a complete send followed by a
short one byte receive), each followed by the pause, and then either one complete send and
receive with nothing after it (`k < 5`) or nothing (`k = 5`). -/
theorem C2_bounded_retry {σ : Type} (client : i2c_client σ) (pdata : lm3554_platform_data)
    (sb tb : Int) (reg val v0 : Nat) (b : Bus σ) :
    (∃ rets : List Int, (∀ e ∈ rets, e ≠ 2) ∧ ∃ ops : List BusOp,
      (lm3554_write_reg ⟨some client, pdata, sb, tb⟩ reg val b).bus.log = b.log ++ ops ∧
      1 ≤ sendCount ops ∧ sendCount ops ≤ 5 ∧
      ((rets.length < 5 ∧ sendCount ops = rets.length + 1 ∧
          (lm3554_write_reg ⟨some client, pdata, sb, tb⟩ reg val b).err = 0 ∧
          ops = failedWrites [reg % 256, val % 256] rets
            ++ [BusOp.send [reg % 256, val % 256] 2 2]) ∨
       (rets.length = 5 ∧ sendCount ops = 5 ∧
          rets.getLast? = some (lm3554_write_reg ⟨some client, pdata, sb, tb⟩ reg val b).err ∧
          ops = failedWrites [reg % 256, val % 256] rets))) ∧
    (∃ fs : List ReadFailure, (∀ f ∈ fs, f.ret ≠ 1) ∧ ∃ ops : List BusOp,
      (lm3554_read_reg ⟨some client, pdata, sb, tb⟩ reg (some v0) b).2.2.log = b.log ++ ops ∧
      1 ≤ sendCount ops ∧ sendCount ops ≤ 5 ∧
      ((fs.length < 5 ∧ sendCount ops = fs.length + 1 ∧
          (lm3554_read_reg ⟨some client, pdata, sb, tb⟩ reg (some v0) b).1 = 0 ∧
          ops = failedReads [(reg % 256) &&& 0xFF] fs
            ++ [BusOp.send [(reg % 256) &&& 0xFF] 1 1, BusOp.recv 1 1]) ∨
       (fs.length = 5 ∧ sendCount ops = 5 ∧
          (fs.map ReadFailure.ret).getLast?
            = some (lm3554_read_reg ⟨some client, pdata, sb, tb⟩ reg (some v0) b).1 ∧
          ops = failedReads [(reg % 256) &&& 0xFF] fs))) := by
  constructor
  · obtain ⟨rets, hr, h⟩ := write_loop_trace client [reg % 256, val % 256]
      LM3554_MAX_RW_RETRIES 0 b (by decide) (by simp)
    refine ⟨rets, hr, ?_⟩
    have h5 : LM3554_MAX_RW_RETRIES = 5 := rfl
    rw [h5] at h
    rcases h with ⟨h1, h2, h3⟩ | ⟨h1, h2, h3, h4⟩
    · refine ⟨failedWrites [reg % 256, val % 256] rets
        ++ [BusOp.send [reg % 256, val % 256] 2 2], ?_, ?_, ?_, Or.inl ⟨h1, ?_, ?_, rfl⟩⟩
      · simp [lm3554_write_reg, h5, h2, h3]
      · simp [sendCount_append, sendCount_failedWrites, sendCount]
      · simp [sendCount_append, sendCount_failedWrites, sendCount]; omega
      · simp [sendCount_append, sendCount_failedWrites, sendCount]
      · simp [lm3554_write_reg, h5, h2]
    · refine ⟨failedWrites [reg % 256, val % 256] rets, ?_, ?_, ?_, Or.inr ⟨h1, ?_, ?_, rfl⟩⟩
      · simp [lm3554_write_reg, h5, h2, h4]
      · simp [sendCount_failedWrites, h1]
      · simp [sendCount_failedWrites, h1]
      · simp [sendCount_failedWrites, h1]
      · simp [lm3554_write_reg, h5, h2, h3]
  · obtain ⟨fs, hr, h⟩ := read_loop_trace client [(reg % 256) &&& 0xFF]
      LM3554_MAX_RW_RETRIES 0 v0 b (by decide) (by simp)
    refine ⟨fs, hr, ?_⟩
    have h5 : LM3554_MAX_RW_RETRIES = 5 := rfl
    rw [h5] at h
    rcases h with ⟨h1, h2, h3⟩ | ⟨h1, h2, h3, h4⟩
    · refine ⟨failedReads [(reg % 256) &&& 0xFF] fs
        ++ [BusOp.send [(reg % 256) &&& 0xFF] 1 1, BusOp.recv 1 1], ?_, ?_, ?_,
        Or.inl ⟨h1, ?_, ?_, rfl⟩⟩
      · simp [lm3554_read_reg, h5, h2, h3]
      · simp [sendCount_append, sendCount_failedReads, sendCount]
      · simp [sendCount_append, sendCount_failedReads, sendCount]; omega
      · simp [sendCount_append, sendCount_failedReads, sendCount]
      · simp [lm3554_read_reg, h5, h2]
    · refine ⟨failedReads [(reg % 256) &&& 0xFF] fs, ?_, ?_, ?_, Or.inr ⟨h1, ?_, ?_, rfl⟩⟩
      · simp [lm3554_read_reg, h5, h2, h4]
      · simp [sendCount_failedReads, h1]
      · simp [sendCount_failedReads, h1]
      · simp [sendCount_failedReads, h1]
      · simp [lm3554_read_reg, h5, h2, h3]

/-- C3 (the code at the failing input): bound to a transport that reports a transfer of 0
bytes on every call, `lm3554_write_reg` and `lm3554_read_reg` make their 5 attempts and then
return 0, the success value, and the read leaves the caller's buffer as it was. -/
theorem C3_zero_count_returns_success :
    (lm3554_write_reg ⟨some zeroClient, samplePdata, 0, 0⟩ LM3554_TORCH_BRIGHTNESS 0x12
      ⟨(), []⟩).err = 0 ∧
    sendCount (lm3554_write_reg ⟨some zeroClient, samplePdata, 0, 0⟩ LM3554_TORCH_BRIGHTNESS
      0x12 ⟨(), []⟩).bus.log = 5 ∧
    (lm3554_read_reg ⟨some zeroClient, samplePdata, 0, 0⟩ LM3554_TORCH_BRIGHTNESS (some 0x99)
      ⟨(), []⟩).1 = 0 ∧
    (lm3554_read_reg ⟨some zeroClient, samplePdata, 0, 0⟩ LM3554_TORCH_BRIGHTNESS (some 0x99)
      ⟨(), []⟩).2.1 = some 0x99 ∧
    sendCount (lm3554_read_reg ⟨some zeroClient, samplePdata, 0, 0⟩ LM3554_TORCH_BRIGHTNESS
      (some 0x99) ⟨(), []⟩).2.2.log = 5 := by
  decide


theorem mem_failedWrites (buf : List Nat) (rets : List Int) (op : BusOp)
    (h : op ∈ failedWrites buf rets) :
    op = BusOp.msleep LM3554_I2C_RETRY_DELAY ∨ ∃ e : Int, op = BusOp.send buf 2 e := by
  induction rets with
  | nil => simp [failedWrites] at h
  | cons e es ih =>
    simp only [failedWrites, List.mem_cons] at h
    rcases h with h | h | h
    · exact Or.inr ⟨e, h⟩
    · exact Or.inl h
    · exact ih h

/-- Whatever the transport does, a register write only appends sends of its own frame and
retry pauses to the trace. -/
theorem write_reg_ops {σ : Type} (td : lm3554_data σ) (reg val : Nat) (b : Bus σ) :
    ∃ ops : List BusOp, (lm3554_write_reg td reg val b).bus.log = b.log ++ ops ∧
      isWriteTrace (reg, val) ops := by
  rcases hc : td.client with _ | client
  · exact ⟨[], by simp [lm3554_write_reg, hc], by intro op h; simp at h⟩
  · obtain ⟨rets, -, h⟩ := write_loop_trace client [reg % 256, val % 256]
      LM3554_MAX_RW_RETRIES 0 b (by decide) (by simp)
    rcases h with ⟨-, h2, h3⟩ | ⟨-, h2, -, h4⟩
    · refine ⟨failedWrites [reg % 256, val % 256] rets
        ++ [BusOp.send [reg % 256, val % 256] 2 2], by simp [lm3554_write_reg, hc, h2, h3], ?_⟩
      intro op hop
      rcases List.mem_append.1 hop with hop | hop
      · exact mem_failedWrites _ _ _ hop
      · exact Or.inr ⟨2, by simpa using hop⟩
    · refine ⟨failedWrites [reg % 256, val % 256] rets, by simp [lm3554_write_reg, hc, h2, h4], ?_⟩
      intro op hop
      exact mem_failedWrites _ _ _ hop

theorem writeInOrder_trace {σ : Type} (td : lm3554_data σ) :
    ∀ (seq : List (Nat × Nat)) (b : Bus σ), ∃ segs : List (List BusOp),
      (writeInOrder td seq b).2.log = b.log ++ segs.flatten ∧
      List.Forall₂ isWriteTrace (seq.take ((writeInOrder td seq b).1 + 1)) segs := by
  intro seq
  induction seq with
  | nil => intro b; exact ⟨[], by simp [writeInOrder], by simp⟩
  | cons p rest ih =>
    intro b
    obtain ⟨ops, hlog, hops⟩ := write_reg_ops td p.1 p.2 b
    by_cases he : (lm3554_write_reg td p.1 p.2 b).err = 0
    · obtain ⟨segs, hl, hf⟩ := ih (lm3554_write_reg td p.1 p.2 b).bus
      refine ⟨ops :: segs, ?_, ?_⟩
      · simp [writeInOrder, he, hl, hlog]
      · simp only [writeInOrder, he, ne_eq, not_true_eq_false, if_false, List.take_succ_cons]
        exact List.Forall₂.cons hops hf
    · refine ⟨[ops], ?_, ?_⟩
      · simp [writeInOrder, he, hlog]
      · simp only [writeInOrder, he, ne_eq, not_false_eq_true, if_true, Nat.zero_add,
          List.take_succ_cons, List.take_zero]
        exact List.Forall₂.cons hops List.Forall₂.nil

theorem sim_writeInOrder (td : lm3554_data SimChip) (h : td.client = some simClient) :
    ∀ (seq : List (Nat × Nat)) (b : Bus SimChip),
      (seq.map (fun p => p.1 % 256)).Nodup →
      (∀ p ∈ seq.take (writeInOrder td seq b).1,
        (writeInOrder td seq b).2.chip.regs (p.1 % 256) = p.2 % 256) ∧
      (∀ a, a ∉ (seq.take ((writeInOrder td seq b).1 + 1)).map (fun p => p.1 % 256) →
        (writeInOrder td seq b).2.chip.regs a = b.chip.regs a) := by
  intro seq
  induction seq with
  | nil => intro b _; simp [writeInOrder]
  | cons p rest ih =>
    intro b hnd
    have hnd' : (rest.map (fun p => p.1 % 256)).Nodup := (List.nodup_cons.1 hnd).2
    have hp : p.1 % 256 ∉ rest.map (fun p => p.1 % 256) := (List.nodup_cons.1 hnd).1
    rcases sim_write_reg td h p.1 p.2 b with ⟨-, ⟨he, hr⟩ | ⟨he, hr⟩⟩
    · obtain ⟨ih1, ih2⟩ := ih (lm3554_write_reg td p.1 p.2 b).bus hnd'
      have hp' : p.1 % 256 ∉ (rest.take ((writeInOrder td rest
          (lm3554_write_reg td p.1 p.2 b).bus).1 + 1)).map (fun p => p.1 % 256) := by
        intro hm
        apply hp
        obtain ⟨q, hq, hqe⟩ := List.mem_map.1 hm
        exact List.mem_map.2 ⟨q, List.mem_of_mem_take hq, hqe⟩
      simp only [writeInOrder, he, ne_eq, not_true_eq_false, if_false, List.take_succ_cons]
      constructor
      · intro q hq
        rcases List.mem_cons.1 hq with rfl | hq
        · rw [ih2 _ hp', hr, Function.update_same]
        · exact ih1 q hq
      · intro a ha
        simp only [List.map_cons, List.mem_cons, not_or] at ha
        rw [ih2 a ha.2, hr, Function.update_noteq ha.1]
    · simp only [writeInOrder, he, ne_eq, not_false_eq_true, if_true, List.take_zero]
      exact ⟨by simp, fun a _ => by rw [hr]⟩

/-- C4: `lm3554_init_registers` is the ordered, short-circuiting sequence of the seven
default writes torch-brightness, flash-brightness, flash-duration, config-1, config-2,
VIN-monitor, GPIO: it returns 0 when all seven writes return 0 and `-EIO` otherwise; with
`n` the number of writes that returned 0 before the first failing one, its trace is made of
the traces of the first `n + 1` writes of the sequence in that order (nothing of a later
register is sent); and on the simulated chip, for any schedule of faults, the first `n`
registers hold their defaults while the registers after the failing one are untouched.  When
the fourth write fails, torch-brightness, flash-brightness and flash-duration are written,
config-1 is attempted five times, and config-2, VIN-monitor and GPIO are never sent. -/
theorem C4_init_registers_order_and_short_circuit :
    (∀ (σ : Type) (td : lm3554_data σ) (b : Bus σ),
      lm3554_init_registers td b
        = { err := if (writeInOrder td (initSequence td.pdata) b).1 = 7 then 0 else - EIO,
            bus := (writeInOrder td (initSequence td.pdata) b).2 } ∧
      ∃ segs : List (List BusOp),
        (lm3554_init_registers td b).bus.log = b.log ++ segs.flatten ∧
        List.Forall₂ isWriteTrace
          ((initSequence td.pdata).take ((writeInOrder td (initSequence td.pdata) b).1 + 1))
          segs) ∧
    (∀ (pdata : lm3554_platform_data) (sb tb : Int) (b : Bus SimChip),
      (∀ p ∈ (initSequence pdata).take
          (writeInOrder (simData pdata sb tb) (initSequence pdata) b).1,
        (lm3554_init_registers (simData pdata sb tb) b).bus.chip.regs p.1 = p.2 % 256) ∧
      (∀ p ∈ (initSequence pdata).drop
          ((writeInOrder (simData pdata sb tb) (initSequence pdata) b).1 + 1),
        (lm3554_init_registers (simData pdata sb tb) b).bus.chip.regs p.1
          = b.chip.regs p.1)) ∧
    ((lm3554_init_registers (simData samplePdata 0 0)
        ⟨⟨sampleRegs, 0, fourthWriteFails⟩, []⟩).err = - EIO ∧
      (writeInOrder (simData samplePdata 0 0) (initSequence samplePdata)
        ⟨⟨sampleRegs, 0, fourthWriteFails⟩, []⟩).1 = 3 ∧
      sentAddresses (lm3554_init_registers (simData samplePdata 0 0)
        ⟨⟨sampleRegs, 0, fourthWriteFails⟩, []⟩).bus.log
        = [0xA0, 0xB0, 0xC0, 0xE0, 0xE0, 0xE0, 0xE0, 0xE0]) := by
  have hA : ∀ (σ : Type) (td : lm3554_data σ) (b : Bus σ),
      lm3554_init_registers td b
        = { err := if (writeInOrder td (initSequence td.pdata) b).1 = 7 then 0 else - EIO,
            bus := (writeInOrder td (initSequence td.pdata) b).2 } := by
    intro σ td b
    simp only [lm3554_init_registers, initSequence, writeInOrder]
    repeat' split
    all_goals simp_all
  refine ⟨fun σ td b => ⟨hA σ td b, ?_⟩, ?_, by decide⟩
  · obtain ⟨segs, h1, h2⟩ := writeInOrder_trace td (initSequence td.pdata) b
    exact ⟨segs, by rw [hA]; exact h1, h2⟩
  · intro pdata sb tb b
    have hnd : ((initSequence pdata).map (fun p => p.1 % 256)).Nodup := by
      simp [initSequence]; decide
    obtain ⟨h1, h2⟩ := sim_writeInOrder (simData pdata sb tb) rfl (initSequence pdata) b hnd
    have hbyte : ∀ p ∈ initSequence pdata, p.1 % 256 = p.1 := by
      intro p hp
      simp only [initSequence, List.mem_cons, List.mem_singleton, List.not_mem_nil,
        or_false] at hp
      rcases hp with rfl | rfl | rfl | rfl | rfl | rfl | rfl <;> rfl
    rw [hA]
    constructor
    · intro p hp
      have := h1 p hp
      rwa [hbyte p (List.mem_of_mem_take hp)] at this
    · intro p hp
      apply h2
      have hsplit : ((initSequence pdata).take
            ((writeInOrder (simData pdata sb tb) (initSequence pdata) b).1 + 1)).map
              (fun p => p.1 % 256)
          ++ ((initSequence pdata).drop
            ((writeInOrder (simData pdata sb tb) (initSequence pdata) b).1 + 1)).map
              (fun p => p.1 % 256)
          = (initSequence pdata).map (fun p => p.1 % 256) := by
        rw [← List.map_append, List.take_append_drop]
      rw [← hsplit] at hnd
      have hdis := List.disjoint_of_nodup_append hnd
      intro hmem
      refine hdis hmem (List.mem_map.2 ⟨p, hp, ?_⟩)
      exact hbyte p (List.mem_of_mem_drop hp)


theorem or_mod_256 (a b : Nat) : (a ||| b) % 256 = a % 256 ||| b % 256 := by
  apply Nat.eq_of_testBit_eq
  intro i
  have h : (256 : Nat) = 2 ^ 8 := rfl
  simp only [h, Nat.testBit_mod_two_pow, Nat.testBit_or, Bool.and_or_distrib_left]

theorem and_mod_256 (a b : Nat) : (a &&& b) % 256 = a % 256 &&& b % 256 := by
  apply Nat.eq_of_testBit_eq
  intro i
  have h : (256 : Nat) = 2 ^ 8 := rfl
  simp only [h, Nat.testBit_mod_two_pow, Nat.testBit_and]
  cases decide (i < 8) <;> simp

/-- The torch sequence on the simulated chip without faults. -/
theorem sim_torch_store_ok (td : lm3554_data SimChip) (h : td.client = some simClient)
    (level v0 : Nat) (regs : Nat → Nat) (ptr : Nat) (log : List BusOp) :
    lm3554_torch_store td (some level) v0 ⟨⟨regs, ptr, []⟩, log⟩
      = { ret := 0,
          data := { td with torch_brightness := toInt32 level },
          bus := ⟨⟨Function.update (Function.update regs 0xF0 0x08) 0xA0
              ((if level ≠ 0 then
                  (((regs 0xA0 % 256) &&& 0xc4 ||| ((level / 32) <<< 3)) % 256) ||| 0x02
                else (regs 0xA0 % 256) &&& 0xc4) % 256), 0xA0, []⟩,
            log ++ [BusOp.send [0xA0] 1 1, BusOp.recv 1 1, BusOp.send [0xF0, 0x08] 2 2,
              BusOp.send [0xA0,
                (if level ≠ 0 then
                  (((regs 0xA0 % 256) &&& 0xc4 ||| ((level / 32) <<< 3)) % 256) ||| 0x02
                else (regs 0xA0 % 256) &&& 0xc4) % 256] 2 2]⟩ } := by
  have e : ((160 : Nat) &&& 255) = 160 := by decide
  simp [lm3554_torch_store, sim_read_reg_ok td h, sim_write_reg_ok td h,
    LM3554_TORCH_BRIGHTNESS, LM3554_CONFIG_REG_2, LM3554_TORCH_STEP, e]


set_option maxRecDepth 100000 in
theorem torch_bits : ∀ r < 256, ∀ q < 8,
    (((r % 256) &&& 0xc4 ||| (q <<< 3)) % 256 ||| 0x02) % 256
        = (r &&& 0xC4) ||| (q <<< 3) ||| 0x02 ∧
    ((r % 256) &&& 0xc4) % 256 = r &&& 0xC4 ∧
    ((r &&& 0xC4) ||| (q <<< 3) ||| 0x02) &&& 0xC4 = r &&& 0xC4 ∧
    (r &&& 0xC4) &&& 0xC4 = r &&& 0xC4 ∧
    (r &&& 0xC4) &&& 0x02 = 0 ∧
    ((r &&& 0xC4) >>> 3) &&& 0x07 = 0 ∧
    (((r &&& 0xC4) ||| (q <<< 3) ||| 0x02) >>> 3) &&& 0x07 = q ∧
    ((r &&& 0xC4) ||| (q <<< 3) ||| 0x02) &&& 0x02 = 0x02 := by
  decide

/-- C5: on the simulated chip with all bus operations succeeding, for every previous
torch-brightness value `r` and every level in 0..255, `lm3554_torch_store` reads 0xA0, writes
`(0xF0, 0x08)` and then writes to 0xA0 the byte `r AND 0xC4` when the level is 0 and
`(r AND 0xC4) OR ((level / 32) << 3) OR 0x02` otherwise.  Bits 7, 6 and 2 of `r` are
preserved; level 0 leaves the enable bit and the brightness field clear; level 32 gives
brightness field 1 with the enable bit set. -/
theorem C5_torch_encoding (pdata : lm3554_platform_data) (sb tb : Int) (r level v0 : Nat)
    (regs : Nat → Nat) (ptr : Nat) (log : List BusOp)
    (hr : regs LM3554_TORCH_BRIGHTNESS = r) (hr8 : r < 256) (hl : level ≤ 255) :
    (lm3554_torch_store (simData pdata sb tb) (some level) v0 ⟨⟨regs, ptr, []⟩, log⟩).ret = 0 ∧
    (lm3554_torch_store (simData pdata sb tb) (some level) v0 ⟨⟨regs, ptr, []⟩, log⟩).bus.log
      = log ++ [BusOp.send [LM3554_TORCH_BRIGHTNESS] 1 1, BusOp.recv 1 1,
          BusOp.send [LM3554_CONFIG_REG_2, 0x08] 2 2,
          BusOp.send [LM3554_TORCH_BRIGHTNESS, torchByte r level] 2 2] ∧
    (lm3554_torch_store (simData pdata sb tb) (some level) v0
      ⟨⟨regs, ptr, []⟩, log⟩).bus.chip.regs LM3554_TORCH_BRIGHTNESS = torchByte r level ∧
    torchByte r level &&& 0xC4 = r &&& 0xC4 ∧
    (level = 0 → torchByte r level &&& 0x02 = 0 ∧ (torchByte r level >>> 3) &&& 0x07 = 0) ∧
    (level = 32 →
      (torchByte r level >>> 3) &&& 0x07 = 1 ∧ torchByte r level &&& 0x02 = 0x02) := by
  have hq : level / 32 < 8 := by omega
  obtain ⟨b1, b2, b3, b4, b5, b6, b7, b8⟩ := torch_bits r hr8 (level / 32) hq
  have hr' : regs 0xA0 = r := hr
  have hbyte : (if level ≠ 0 then
        (((regs 0xA0 % 256) &&& 0xc4 ||| ((level / 32) <<< 3)) % 256) ||| 0x02
      else (regs 0xA0 % 256) &&& 0xc4) % 256 = torchByte r level := by
    rw [hr']
    by_cases h0 : level = 0
    · simp only [h0, ne_eq, not_true_eq_false, if_false, torchByte, if_true]; exact b2
    · simp only [h0, ne_eq, not_false_eq_true, if_true, torchByte, if_false]; exact b1
  rw [sim_torch_store_ok _ rfl, hbyte]
  refine ⟨rfl, rfl, ?_, ?_, ?_, ?_⟩
  · show Function.update (Function.update regs 240 8) 160 (torchByte r level) 160 = _
    rw [Function.update_same]
  · by_cases h0 : level = 0
    · simp only [torchByte, h0, if_true]; exact b4
    · simp only [torchByte, h0, if_false]; exact b3
  · intro h0
    simp only [torchByte, h0, if_true]
    exact ⟨b5, b6⟩
  · intro h32
    have hne : level ≠ 0 := by omega
    have hq1 : level / 32 = 1 := by omega
    simp only [torchByte, hne, if_false]
    rw [hq1] at b7 b8
    rw [hq1]
    exact ⟨b7, b8⟩

theorem C5_witness :
    sampleRegs LM3554_TORCH_BRIGHTNESS = 0xC5 ∧ 0xC5 < 256 ∧ 32 ≤ 255 ∧
    (lm3554_torch_store (simData samplePdata 0 0) (some 32) 0
      ⟨⟨sampleRegs, 0, []⟩, []⟩).bus.chip.regs LM3554_TORCH_BRIGHTNESS = torchByte 0xC5 32 ∧
    torchByte 0xC5 32 = 0xCE :=
  ⟨by decide, by decide, by decide,
    (C5_torch_encoding samplePdata 0 0 0xC5 32 0 sampleRegs 0 [] (by decide) (by decide)
      (by decide)).2.2.1, by decide⟩


theorem mem_failedReads (value : List Nat) (fs : List ReadFailure) (op : BusOp)
    (h : op ∈ failedReads value fs) :
    op = BusOp.msleep LM3554_I2C_RETRY_DELAY ∨
      (∃ e : Int, op = BusOp.send value 1 e) ∨ ∃ e : Int, op = BusOp.recv 1 e := by
  induction fs with
  | nil => simp [failedReads] at h
  | cons f fs ih =>
    cases f with
    | sendShort e =>
      simp only [failedReads, List.mem_cons] at h
      rcases h with h | h | h
      · exact Or.inr (Or.inl ⟨e, h⟩)
      · exact Or.inl h
      · exact ih h
    | recvShort e =>
      simp only [failedReads, List.mem_cons] at h
      rcases h with h | h | h | h
      · exact Or.inr (Or.inl ⟨1, h⟩)
      · exact Or.inr (Or.inr ⟨e, h⟩)
      · exact Or.inl h
      · exact ih h

/-- Whatever the transport does, a register read only appends one byte sends of its
address, one byte receives and retry pauses to the trace. -/
theorem read_reg_ops {σ : Type} (td : lm3554_data σ) (reg : Nat) (val : Option Nat)
    (b : Bus σ) :
    ∃ ops : List BusOp, (lm3554_read_reg td reg val b).2.2.log = b.log ++ ops ∧
      isReadTrace reg ops := by
  rcases val with _ | v
  · exact ⟨[], by simp [lm3554_read_reg], by intro op h; simp at h⟩
  rcases hc : td.client with _ | client
  · exact ⟨[], by simp [lm3554_read_reg, hc], by intro op h; simp at h⟩
  · obtain ⟨fs, -, h⟩ := read_loop_trace client [(reg % 256) &&& 0xFF]
      LM3554_MAX_RW_RETRIES 0 v b (by decide) (by simp)
    rcases h with ⟨-, h2, h3⟩ | ⟨-, h2, -, h4⟩
    · refine ⟨failedReads [(reg % 256) &&& 0xFF] fs
        ++ [BusOp.send [(reg % 256) &&& 0xFF] 1 1, BusOp.recv 1 1],
        by simp [lm3554_read_reg, hc, h2, h3], ?_⟩
      intro op hop
      rcases List.mem_append.1 hop with hop | hop
      · exact mem_failedReads _ _ _ hop
      · simp only [List.mem_cons, List.mem_singleton, List.not_mem_nil, or_false] at hop
        rcases hop with hop | hop
        · exact Or.inr (Or.inl ⟨1, hop⟩)
        · exact Or.inr (Or.inr ⟨1, hop⟩)
    · refine ⟨failedReads [(reg % 256) &&& 0xFF] fs, by simp [lm3554_read_reg, hc, h2, h4], ?_⟩
      intro op hop
      exact mem_failedReads _ _ _ hop

/-- A register write that returns 0 has sent its frame at least once. -/
theorem write_reg_ok_sent {σ : Type} (td : lm3554_data σ) (reg val : Nat) (b : Bus σ)
    (h0 : (lm3554_write_reg td reg val b).err = 0) :
    ∃ ops : List BusOp, (lm3554_write_reg td reg val b).bus.log = b.log ++ ops ∧
      isWriteTrace (reg, val) ops ∧
      ∃ e : Int, BusOp.send [reg % 256, val % 256] 2 e ∈ ops := by
  obtain ⟨ops, hlog, hops⟩ := write_reg_ops td reg val b
  refine ⟨ops, hlog, hops, ?_⟩
  rcases hc : td.client with _ | client
  · simp [lm3554_write_reg, hc, EUNATCH] at h0
  · obtain ⟨rets, -, h⟩ := write_loop_trace client [reg % 256, val % 256]
      LM3554_MAX_RW_RETRIES 0 b (by decide) (by simp)
    have hlog' : (lm3554_write_reg td reg val b).bus.log
        = (lm3554_write_loop client [reg % 256, val % 256] LM3554_MAX_RW_RETRIES 0 b).bus.log := by
      simp only [lm3554_write_reg, hc]; split <;> rfl
    rw [hlog'] at hlog
    rcases h with ⟨-, -, h3⟩ | ⟨h1, -, -, h4⟩
    · rw [h3, List.append_assoc] at hlog
      have := List.append_cancel_left hlog
      exact ⟨2, by rw [← this]; simp⟩
    · rw [h4] at hlog
      have := List.append_cancel_left hlog
      cases rets with
      | nil => simp [LM3554_MAX_RW_RETRIES] at h1
      | cons e es => exact ⟨e, by rw [← this]; simp [failedWrites]⟩

theorem prefix_of_not_mem {α : Type} (before after pre post : List α) (x : α)
    (h : before ++ after = pre ++ x :: post) (hx : x ∉ before) :
    ∃ mid, pre = before ++ mid := by
  induction before generalizing pre with
  | nil => exact ⟨pre, rfl⟩
  | cons a as ih =>
    cases pre with
    | nil =>
      simp only [List.cons_append, List.nil_append, List.cons.injEq] at h
      exact absurd (h.1 ▸ List.mem_cons_self a as) hx
    | cons p ps =>
      simp only [List.cons_append, List.cons.injEq] at h
      obtain ⟨mid, hmid⟩ := ih ps h.2 (fun hm => hx (List.mem_cons_of_mem _ hm))
      exact ⟨mid, by rw [h.1, hmid]; rfl⟩

/-- The result of `lm3554_torch_store` in terms of its three steps. -/
theorem torch_store_steps {σ : Type} (td : lm3554_data σ) (level v0 : Nat) (b : Bus σ) :
    lm3554_torch_store td (some level) v0 b
      = if (torchStepRead td v0 b).1 ≠ 0 then
          { ret := (torchStepRead td v0 b).1, data := td, bus := (torchStepRead td v0 b).2.2 }
        else if (torchStepConfig td v0 b).err ≠ 0 then
          { ret := - EIO, data := td, bus := (torchStepConfig td v0 b).bus }
        else if (torchStepWrite td level v0 b).err ≠ 0 then
          { ret := - EIO, data := td, bus := (torchStepWrite td level v0 b).bus }
        else
          { ret := (torchStepWrite td level v0 b).err,
            data := { td with torch_brightness := toInt32 level },
            bus := (torchStepWrite td level v0 b).bus } := by
  rfl


theorem ordering_aux (before after : List BusOp)
    (hno : ∀ op ∈ before, ∀ v e, op ≠ BusOp.send [LM3554_TORCH_BRIGHTNESS, v] 2 e)
    (hafter : after ≠ [] → ∃ e', BusOp.send [LM3554_CONFIG_REG_2, 0x08] 2 e' ∈ before) :
    ∀ pre post v e,
      before ++ after = pre ++ BusOp.send [LM3554_TORCH_BRIGHTNESS, v] 2 e :: post →
      ∃ e', BusOp.send [LM3554_CONFIG_REG_2, 0x08] 2 e' ∈ pre := by
  intro pre post v e h
  obtain ⟨mid, hmid⟩ := prefix_of_not_mem before after pre post _ h
    (fun hm => hno _ hm v e rfl)
  rw [hmid, List.append_assoc] at h
  have h' := List.append_cancel_left h
  obtain ⟨e', he'⟩ := hafter (by rw [h']; simp)
  exact ⟨e', by rw [hmid]; exact List.mem_append_left _ he'⟩

theorem readTrace_no_torch_write (reg : Nat) (seg : List BusOp) (h : isReadTrace reg seg) :
    ∀ op ∈ seg, ∀ v e, op ≠ BusOp.send [LM3554_TORCH_BRIGHTNESS, v] 2 e := by
  intro op hop v e heq
  rcases h op hop with h | ⟨e', h⟩ | ⟨e', h⟩ <;> rw [h] at heq <;> simp at heq

theorem config_no_torch_write (seg : List BusOp)
    (h : isWriteTrace (LM3554_CONFIG_REG_2, 0x08) seg) :
    ∀ op ∈ seg, ∀ v e, op ≠ BusOp.send [LM3554_TORCH_BRIGHTNESS, v] 2 e := by
  intro op hop v e heq
  rcases h op hop with h | ⟨e', h⟩ <;> rw [h] at heq
  · simp at heq
  · simp [LM3554_CONFIG_REG_2, LM3554_TORCH_BRIGHTNESS] at heq

/-- C6 (as amended): whatever the transport does, every two byte write frame `(0xA0, v)`
that `lm3554_torch_store` sends to the torch-brightness register is preceded in the trace of
the call by the config-2 frame `(0xF0, 0x08)`; and if the config-2 write returns an error the
function returns `-EIO`, ends with that write, has sent no write frame `(0xA0, v)` and leaves
the driver data as it was.  On the simulated chip the torch-brightness register then still
holds its previous value. -/
theorem C6_torch_config_before_brightness :
    (∀ (σ : Type) (td : lm3554_data σ) (level v0 : Nat) (b : Bus σ),
      ∃ ops : List BusOp,
        (lm3554_torch_store td (some level) v0 b).bus.log = b.log ++ ops ∧
        (∀ pre post v e,
          ops = pre ++ BusOp.send [LM3554_TORCH_BRIGHTNESS, v] 2 e :: post →
          ∃ e', BusOp.send [LM3554_CONFIG_REG_2, 0x08] 2 e' ∈ pre) ∧
        ((torchStepRead td v0 b).1 = 0 → (torchStepConfig td v0 b).err ≠ 0 →
          (lm3554_torch_store td (some level) v0 b).ret = - EIO ∧
          (lm3554_torch_store td (some level) v0 b).data = td ∧
          (lm3554_torch_store td (some level) v0 b).bus = (torchStepConfig td v0 b).bus ∧
          ∀ op ∈ ops, ∀ v e, op ≠ BusOp.send [LM3554_TORCH_BRIGHTNESS, v] 2 e)) ∧
    (∀ (pdata : lm3554_platform_data) (sb tb : Int) (level v0 : Nat) (b : Bus SimChip),
      (torchStepRead (simData pdata sb tb) v0 b).1 = 0 →
      (torchStepConfig (simData pdata sb tb) v0 b).err ≠ 0 →
      (lm3554_torch_store (simData pdata sb tb) (some level) v0 b).bus.chip.regs
          LM3554_TORCH_BRIGHTNESS
        = b.chip.regs LM3554_TORCH_BRIGHTNESS) := by
  constructor
  · intro σ td level v0 b
    obtain ⟨ro, hro, hrt⟩ := read_reg_ops td LM3554_TORCH_BRIGHTNESS (some v0) b
    obtain ⟨co, hco, hct⟩ := write_reg_ops td LM3554_CONFIG_REG_2 0x08 (torchStepRead td v0 b).2.2
    obtain ⟨wo, hwo, -⟩ := write_reg_ops td LM3554_TORCH_BRIGHTNESS
      (torch_encode ((torchStepRead td v0 b).2.1.getD v0) level) (torchStepConfig td v0 b).bus
    have hro' : (torchStepRead td v0 b).2.2.log = b.log ++ ro := hro
    have hco' : (torchStepConfig td v0 b).bus.log = b.log ++ (ro ++ co) := by
      show (lm3554_write_reg td LM3554_CONFIG_REG_2 0x08 (torchStepRead td v0 b).2.2).bus.log = _
      rw [hco, hro', List.append_assoc]
    have hwo' : (torchStepWrite td level v0 b).bus.log = b.log ++ ((ro ++ co) ++ wo) := by
      show (lm3554_write_reg td LM3554_TORCH_BRIGHTNESS _ (torchStepConfig td v0 b).bus).bus.log
        = _
      rw [hwo, hco', List.append_assoc]
    have hnoR := readTrace_no_torch_write _ _ hrt
    have hnoC := config_no_torch_write _ hct
    have hnoRC : ∀ op ∈ ro ++ co, ∀ v e,
        op ≠ BusOp.send [LM3554_TORCH_BRIGHTNESS, v] 2 e := by
      intro op hop
      rcases List.mem_append.1 hop with h | h
      · exact hnoR op h
      · exact hnoC op h
    rw [torch_store_steps]
    by_cases h1 : (torchStepRead td v0 b).1 = 0
    · by_cases h2 : (torchStepConfig td v0 b).err = 0
      · have hsent : ∃ e', BusOp.send [LM3554_CONFIG_REG_2, 0x08] 2 e' ∈ ro ++ co := by
          obtain ⟨co2, hco2, -, e', he'⟩ := write_reg_ok_sent td LM3554_CONFIG_REG_2 0x08
            (torchStepRead td v0 b).2.2 h2
          have : co2 = co := List.append_cancel_left (hco2.symm.trans hco)
          rw [this] at he'
          exact ⟨e', List.mem_append_right _ he'⟩
        refine ⟨(ro ++ co) ++ wo, ?_, ordering_aux _ _ hnoRC (fun _ => hsent),
          fun _ hc => absurd h2 hc⟩
        by_cases h3 : (torchStepWrite td level v0 b).err = 0 <;> simp [h1, h2, h3, hwo']
      · refine ⟨ro ++ co, by simp [h1, h2, hco'], ?_, fun _ _ => ?_⟩
        · have := ordering_aux (ro ++ co) [] hnoRC (fun h => absurd rfl h)
          simpa using this
        · refine ⟨by simp [h1, h2], by simp [h1, h2], by simp [h1, h2], hnoRC⟩
    · refine ⟨ro, by simp [h1, hro'], ?_, fun h => absurd h h1⟩
      have := ordering_aux ro [] hnoR (fun h => absurd rfl h)
      simpa using this
  · intro pdata sb tb level v0 b h1 h2
    have hc : (simData pdata sb tb).client = some simClient := rfl
    rw [torch_store_steps]
    simp only [h1, h2, ne_eq, not_true_eq_false, not_false_eq_true, if_true, if_false]
    have hr := (sim_read_reg _ hc LM3554_TORCH_BRIGHTNESS v0 b).1
    rcases (sim_write_reg _ hc LM3554_CONFIG_REG_2 0x08
      (torchStepRead (simData pdata sb tb) v0 b).2.2).2 with ⟨he, -⟩ | ⟨-, hw⟩
    · exact absurd he h2
    · show (lm3554_write_reg _ LM3554_CONFIG_REG_2 0x08
        (torchStepRead (simData pdata sb tb) v0 b).2.2).bus.chip.regs _ = _
      rw [hw]
      exact congrFun hr _

theorem C6_witness :
    (torchStepRead (simData samplePdata 0 0) 0 ⟨⟨sampleRegs, 0, thirdCallOnFails⟩, []⟩).1 = 0 ∧
    (torchStepConfig (simData samplePdata 0 0) 0
      ⟨⟨sampleRegs, 0, thirdCallOnFails⟩, []⟩).err ≠ 0 ∧
    (lm3554_torch_store (simData samplePdata 0 0) (some 64) 0
      ⟨⟨sampleRegs, 0, thirdCallOnFails⟩, []⟩).bus.chip.regs LM3554_TORCH_BRIGHTNESS
        = sampleRegs LM3554_TORCH_BRIGHTNESS :=
  ⟨by decide, by decide,
    C6_torch_config_before_brightness.2 samplePdata 0 0 64 0
      ⟨⟨sampleRegs, 0, thirdCallOnFails⟩, []⟩ (by decide) (by decide)⟩

/-- C6 (counterexample for the one byte address frame): on the simulated chip with the read
succeeding and every attempt of the config-2 write failing, `lm3554_torch_store` returns
`-EIO`, yet the first operation of its trace is the one byte frame `[0xA0]` of the read: a
frame addressed to the torch-brightness register is sent, and it is sent before every
config-2 frame. -/
theorem C6_counterexample :
    (torchStepRead (simData samplePdata 0 0) 0 ⟨⟨sampleRegs, 0, thirdCallOnFails⟩, []⟩).1 = 0 ∧
    (torchStepConfig (simData samplePdata 0 0) 0
      ⟨⟨sampleRegs, 0, thirdCallOnFails⟩, []⟩).err ≠ 0 ∧
    (lm3554_torch_store (simData samplePdata 0 0) (some 64) 0
      ⟨⟨sampleRegs, 0, thirdCallOnFails⟩, []⟩).ret = - EIO ∧
    (lm3554_torch_store (simData samplePdata 0 0) (some 64) 0
      ⟨⟨sampleRegs, 0, thirdCallOnFails⟩, []⟩).bus.log.head?
        = some (BusOp.send [LM3554_TORCH_BRIGHTNESS] 1 1) ∧
    sentAddresses (lm3554_torch_store (simData samplePdata 0 0) (some 64) 0
      ⟨⟨sampleRegs, 0, thirdCallOnFails⟩, []⟩).bus.log
        = [LM3554_TORCH_BRIGHTNESS, LM3554_CONFIG_REG_2, LM3554_CONFIG_REG_2,
            LM3554_CONFIG_REG_2, LM3554_CONFIG_REG_2, LM3554_CONFIG_REG_2] := by
  decide


theorem toInt32_of_lt (n : Nat) (h : n < 2 ^ 31) : toInt32 n = (n : Int) := by
  have h32 : n % 2 ^ 32 = n := Nat.mod_eq_of_lt (by omega)
  simp only [toInt32, h32, h, if_true]

/-- C7 (as amended): for every level below 2^31, whatever the transport does,
`lm3554_torch_store` returns 0 exactly when the read, the config-2 write and the
torch-brightness write all return 0; in that case the cached `torch_brightness` becomes the
level and the cached `strobe_brightness` is unchanged; when any of the three fails the driver
data, both caches included, is unchanged.  `lm3554_torch_show` prints the cached value and
does not touch the bus. -/
theorem C7_torch_cache {σ : Type} (td : lm3554_data σ) (level v0 sizeof_buf : Nat)
    (b : Bus σ) (hl : level < 2 ^ 31) :
    ((lm3554_torch_store td (some level) v0 b).ret = 0 ↔
      ((torchStepRead td v0 b).1 = 0 ∧ (torchStepConfig td v0 b).err = 0 ∧
        (torchStepWrite td level v0 b).err = 0)) ∧
    (((torchStepRead td v0 b).1 = 0 ∧ (torchStepConfig td v0 b).err = 0 ∧
        (torchStepWrite td level v0 b).err = 0) →
      (lm3554_torch_store td (some level) v0 b).data.torch_brightness = (level : Int) ∧
      (lm3554_torch_store td (some level) v0 b).data.strobe_brightness
        = td.strobe_brightness) ∧
    (¬ ((torchStepRead td v0 b).1 = 0 ∧ (torchStepConfig td v0 b).err = 0 ∧
        (torchStepWrite td level v0 b).err = 0) →
      (lm3554_torch_store td (some level) v0 b).data = td) ∧
    (lm3554_torch_show sizeof_buf (lm3554_torch_store td (some level) v0 b).data
        (lm3554_torch_store td (some level) v0 b).bus).text
      = toString (lm3554_torch_store td (some level) v0 b).data.torch_brightness ++ "\n" ∧
    (lm3554_torch_show sizeof_buf (lm3554_torch_store td (some level) v0 b).data
        (lm3554_torch_store td (some level) v0 b).bus).bus
      = (lm3554_torch_store td (some level) v0 b).bus := by
  refine ⟨?_, ?_, ?_, rfl, rfl⟩
  · rw [torch_store_steps]
    by_cases h1 : (torchStepRead td v0 b).1 = 0
    · by_cases h2 : (torchStepConfig td v0 b).err = 0
      · by_cases h3 : (torchStepWrite td level v0 b).err = 0
        · simp [h1, h2, h3]
        · simp [h1, h2, h3, EIO]
      · simp [h1, h2, EIO]
    · simp [h1]
  · rintro ⟨h1, h2, h3⟩
    rw [torch_store_steps]
    simp [h1, h2, h3, toInt32_of_lt level hl]
  · intro h
    rw [torch_store_steps]
    by_cases h1 : (torchStepRead td v0 b).1 = 0
    · by_cases h2 : (torchStepConfig td v0 b).err = 0
      · by_cases h3 : (torchStepWrite td level v0 b).err = 0
        · exact absurd ⟨h1, h2, h3⟩ h
        · simp [h1, h2, h3]
      · simp [h1, h2]
    · simp [h1]

theorem C7_witness :
    (64 : Nat) < 2 ^ 31 ∧
    ((torchStepRead (simData samplePdata 0 0) 0 ⟨⟨sampleRegs, 0, []⟩, []⟩).1 = 0 ∧
      (torchStepConfig (simData samplePdata 0 0) 0 ⟨⟨sampleRegs, 0, []⟩, []⟩).err = 0 ∧
      (torchStepWrite (simData samplePdata 0 0) 64 0 ⟨⟨sampleRegs, 0, []⟩, []⟩).err = 0) ∧
    (lm3554_torch_store (simData samplePdata 0 0) (some 64) 0
      ⟨⟨sampleRegs, 0, []⟩, []⟩).data.torch_brightness = 64 :=
  ⟨by decide, by decide,
    ((C7_torch_cache (simData samplePdata 0 0) 64 0 4 ⟨⟨sampleRegs, 0, []⟩, []⟩
      (by decide)).2.1 (by decide)).1⟩

/-- C7 (counterexample for a level beyond the `int` range): on the simulated chip with every bus operation
succeeding, level 2147483648 makes the read, the config-2 write and the torch-brightness
write succeed, yet the cached `torch_brightness`, an `int`, becomes -2147483648 and not the
level. -/
theorem C7_counterexample :
    (torchStepRead (simData samplePdata 0 0) 0 ⟨⟨sampleRegs, 0, []⟩, []⟩).1 = 0 ∧
    (torchStepConfig (simData samplePdata 0 0) 0 ⟨⟨sampleRegs, 0, []⟩, []⟩).err = 0 ∧
    (torchStepWrite (simData samplePdata 0 0) 2147483648 0
      ⟨⟨sampleRegs, 0, []⟩, []⟩).err = 0 ∧
    (lm3554_torch_store (simData samplePdata 0 0) (some 2147483648) 0
      ⟨⟨sampleRegs, 0, []⟩, []⟩).ret = 0 ∧
    (lm3554_torch_store (simData samplePdata 0 0) (some 2147483648) 0
      ⟨⟨sampleRegs, 0, []⟩, []⟩).data.torch_brightness = -2147483648 ∧
    (lm3554_torch_store (simData samplePdata 0 0) (some 2147483648) 0
      ⟨⟨sampleRegs, 0, []⟩, []⟩).data.torch_brightness ≠ ((2147483648 : Nat) : Int) := by
  decide

/-- The result of `lm3554_strobe_store` in terms of its steps. -/
theorem strobe_store_steps {σ : Type} (td : lm3554_data σ) (level val sb : Nat) (b : Bus σ) :
    lm3554_strobe_store td (some level) val sb b
      = if (strobeStepReadConfig td val b).1 ≠ 0 then
          { ret := - EIO, data := td, bus := (strobeStepReadConfig td val b).2.2 }
        else if (strobeStepTorchDefault td val b).err ≠ 0 then
          { ret := - EIO, data := td, bus := (strobeStepTorchDefault td val b).bus }
        else if (strobeStepReadFlash td val sb b).1 ≠ 0 then
          { ret := - EIO, data := td, bus := (strobeStepReadFlash td val sb b).2.2 }
        else if (strobeStepWriteFlash td level val sb b).err ≠ 0 then
          { ret := - EIO, data := td, bus := (strobeStepWriteFlash td level val sb b).bus }
        else
          { ret := 0,
            data := { td with strobe_brightness := toInt32 level },
            bus := (strobeStepWriteConfig td level val sb b).bus } := by
  rfl

/-- The strobe sequence on the simulated chip without faults. -/
theorem sim_strobe_store_ok (td : lm3554_data SimChip) (h : td.client = some simClient)
    (level val sb : Nat) (regs : Nat → Nat) (ptr : Nat) (log : List BusOp) :
    lm3554_strobe_store td (some level) val sb ⟨⟨regs, ptr, []⟩, log⟩
      = { ret := 0,
          data := { td with strobe_brightness := toInt32 level },
          bus := ⟨⟨Function.update (Function.update (Function.update regs
                0xA0 (td.pdata.torch_brightness_def % 256))
                0xB0 (flash_encode (regs 0xB0 % 256) level % 256))
                0xE0 (config1_encode (regs 0xE0 % 256) level % 256), 0xB0, []⟩,
            log ++ [BusOp.send [0xE0] 1 1, BusOp.recv 1 1,
              BusOp.send [0xA0, td.pdata.torch_brightness_def % 256] 2 2,
              BusOp.send [0xB0] 1 1, BusOp.recv 1 1,
              BusOp.send [0xB0, flash_encode (regs 0xB0 % 256) level % 256] 2 2,
              BusOp.send [0xE0, config1_encode (regs 0xE0 % 256) level % 256] 2 2]⟩ } := by
  have e1 : ((224 : Nat) &&& 255) = 224 := by decide
  have e2 : ((176 : Nat) &&& 255) = 176 := by decide
  have htd : ({ td with strobe_brightness := toInt32 level } : lm3554_data SimChip).client
      = some simClient := h
  simp [lm3554_strobe_store, sim_read_reg_ok td h, sim_write_reg_ok td h,
    sim_write_reg_ok _ htd, flash_encode, config1_encode,
    LM3554_TORCH_BRIGHTNESS, LM3554_CONFIG_REG_1, LM3554_FLASH_BRIGHTNESS, LM3554_STROBE_STEP,
    e1, e2]

set_option maxRecDepth 100000 in
theorem strobe16_bits : ∀ r < 256,
    flash_encode (r % 256) 16 % 256 = flashByte16 r ∧
    (flashByte16 r >>> 3) &&& 0x0F = 1 ∧
    flashByte16 r &&& 0x83 = r &&& 0x83 := by
  decide

/-- C8 (as amended): on the simulated chip with all bus operations succeeding, for every
previous flash-brightness value `r`, `lm3554_strobe_store` with level 16 returns 0 and writes
to register 0xB0 the byte `(r AND 0x83) OR 0x08`: its brightness field (bits 3..6) is 1 and
its bits inside mask 0x83 (bits 7, 1 and 0) are those of `r`. -/
theorem C8_strobe_level_16 (pdata : lm3554_platform_data) (sb tb : Int) (r val sb0 : Nat)
    (regs : Nat → Nat) (ptr : Nat) (log : List BusOp)
    (hr : regs LM3554_FLASH_BRIGHTNESS = r) (hr8 : r < 256) :
    (lm3554_strobe_store (simData pdata sb tb) (some 16) val sb0
      ⟨⟨regs, ptr, []⟩, log⟩).ret = 0 ∧
    BusOp.send [LM3554_FLASH_BRIGHTNESS, flashByte16 r] 2 2 ∈
      (lm3554_strobe_store (simData pdata sb tb) (some 16) val sb0
        ⟨⟨regs, ptr, []⟩, log⟩).bus.log ∧
    (lm3554_strobe_store (simData pdata sb tb) (some 16) val sb0
      ⟨⟨regs, ptr, []⟩, log⟩).bus.chip.regs LM3554_FLASH_BRIGHTNESS = flashByte16 r ∧
    (flashByte16 r >>> 3) &&& 0x0F = 1 ∧
    flashByte16 r &&& 0x83 = r &&& 0x83 := by
  obtain ⟨b1, b2, b3⟩ := strobe16_bits r hr8
  have hr' : regs 0xB0 = r := hr
  rw [sim_strobe_store_ok _ rfl, hr', b1]
  refine ⟨rfl, ?_, ?_, b2, b3⟩
  · simp [LM3554_FLASH_BRIGHTNESS]
  · simp [LM3554_FLASH_BRIGHTNESS, Function.update_apply]

theorem C8_witness :
    sampleRegs LM3554_FLASH_BRIGHTNESS = 0x04 ∧ 0x04 < 256 ∧
    (lm3554_strobe_store (simData samplePdata 0 0) (some 16) 0 0
      ⟨⟨sampleRegs, 0, []⟩, []⟩).bus.chip.regs LM3554_FLASH_BRIGHTNESS = flashByte16 0x04 ∧
    flashByte16 0x04 = 0x08 :=
  ⟨by decide, by decide,
    (C8_strobe_level_16 samplePdata 0 0 0x04 0 0 sampleRegs 0 [] (by decide)
      (by decide)).2.2.1, by decide⟩

/-- C8 (counterexample for the bits outside mask 0x83): with previous flash-brightness value 0x04 and every bus
operation succeeding, level 16 writes 0x08 to register 0xB0: bit 2, a bit outside mask 0x83,
is not the corresponding bit of the previous value. -/
theorem C8_counterexample :
    sampleRegs LM3554_FLASH_BRIGHTNESS = 0x04 ∧
    (lm3554_strobe_store (simData samplePdata 0 0) (some 16) 0 0
      ⟨⟨sampleRegs, 0, []⟩, []⟩).ret = 0 ∧
    (lm3554_strobe_store (simData samplePdata 0 0) (some 16) 0 0
      ⟨⟨sampleRegs, 0, []⟩, []⟩).bus.chip.regs LM3554_FLASH_BRIGHTNESS = 0x08 ∧
    (lm3554_strobe_store (simData samplePdata 0 0) (some 16) 0 0
      ⟨⟨sampleRegs, 0, []⟩, []⟩).bus.chip.regs LM3554_FLASH_BRIGHTNESS &&& 0x7C
        ≠ sampleRegs LM3554_FLASH_BRIGHTNESS &&& 0x7C := by
  decide

/-- A register write on a bound client sends its frame at least once. -/
theorem write_reg_bound_sent {σ : Type} (td : lm3554_data σ) (reg val : Nat) (b : Bus σ)
    (hb : td.client ≠ none) :
    ∃ ops : List BusOp, (lm3554_write_reg td reg val b).bus.log = b.log ++ ops ∧
      isWriteTrace (reg, val) ops ∧
      ∃ e : Int, BusOp.send [reg % 256, val % 256] 2 e ∈ ops := by
  obtain ⟨ops, hlog, hops⟩ := write_reg_ops td reg val b
  refine ⟨ops, hlog, hops, ?_⟩
  rcases hc : td.client with _ | client
  · exact absurd hc hb
  · obtain ⟨rets, -, h⟩ := write_loop_trace client [reg % 256, val % 256]
      LM3554_MAX_RW_RETRIES 0 b (by decide) (by simp)
    have hlog' : (lm3554_write_reg td reg val b).bus.log
        = (lm3554_write_loop client [reg % 256, val % 256] LM3554_MAX_RW_RETRIES 0 b).bus.log := by
      simp only [lm3554_write_reg, hc]; split <;> rfl
    rw [hlog'] at hlog
    rcases h with ⟨-, -, h3⟩ | ⟨h1, -, -, h4⟩
    · rw [h3, List.append_assoc] at hlog
      have := List.append_cancel_left hlog
      exact ⟨2, by rw [← this]; simp⟩
    · rw [h4] at hlog
      have := List.append_cancel_left hlog
      cases rets with
      | nil => simp [LM3554_MAX_RW_RETRIES] at h1
      | cons e es => exact ⟨e, by rw [← this]; simp [failedWrites]⟩

theorem write_reg_ok_bound {σ : Type} (td : lm3554_data σ) (reg val : Nat) (b : Bus σ)
    (h0 : (lm3554_write_reg td reg val b).err = 0) : td.client ≠ none := by
  intro hc
  simp [lm3554_write_reg, hc, EUNATCH] at h0

set_option maxRecDepth 100000 in
theorem config1_bits : ∀ c < 256,
    ((c ||| 0x04) &&& 0xfb) % 256 = c &&& 0xFB ∧
    (c ||| 0x04) % 256 = c ||| 0x04 ∧
    (c ||| 0x04) &&& 0x04 = 0x04 ∧
    (c ||| 0x04) &&& 0xFB = c &&& 0xFB ∧
    (c &&& 0xFB) &&& 0x04 = 0 ∧
    (c &&& 0xFB) &&& 0xFB = c &&& 0xFB := by
  decide

/-- C9: whatever the transport does, when the config-1 read (delivering the byte `c`), the
torch-brightness default write, the flash-brightness read and the flash-brightness write of
`lm3554_strobe_store` all return 0, the rest of the trace consists of at least one send of
the frame `(0xE0, c OR 0x04)` when the level is 0 and `(0xE0, c AND 0xFB)` when it is not,
and of retry pauses.  Bit `0x04` of that byte is 1 exactly when the level is 0 and its other
seven bits are those of `c`. -/
theorem C9_strobe_config1_byte {σ : Type} (td : lm3554_data σ) (level val sb c : Nat)
    (b : Bus σ)
    (h1 : (strobeStepReadConfig td val b).1 = 0)
    (hc : (strobeStepReadConfig td val b).2.1 = some c) (hc8 : c < 256)
    (h2 : (strobeStepTorchDefault td val b).err = 0)
    (h3 : (strobeStepReadFlash td val sb b).1 = 0)
    (h4 : (strobeStepWriteFlash td level val sb b).err = 0) :
    (∃ ops : List BusOp,
      (lm3554_strobe_store td (some level) val sb b).bus.log
        = (strobeStepWriteFlash td level val sb b).bus.log ++ ops ∧
      (∀ op ∈ ops, op = BusOp.msleep LM3554_I2C_RETRY_DELAY ∨
        ∃ e : Int, op = BusOp.send [LM3554_CONFIG_REG_1, config1Byte c level] 2 e) ∧
      ∃ e : Int, BusOp.send [LM3554_CONFIG_REG_1, config1Byte c level] 2 e ∈ ops) ∧
    (config1Byte c level &&& 0x04 = 0x04 ↔ level = 0) ∧
    (config1Byte c level &&& 0x04 = if level = 0 then 0x04 else 0) ∧
    config1Byte c level &&& 0xFB = c &&& 0xFB := by
  obtain ⟨b1, b2, b3, b4, b5, b6⟩ := config1_bits c hc8
  have hbyte : config1_encode c level % 256 = config1Byte c level := by
    by_cases h0 : level = 0
    · simp only [config1_encode, config1Byte, h0, ne_eq, not_true_eq_false, if_false, if_true]
      exact b2
    · simp only [config1_encode, config1Byte, h0, ne_eq, not_false_eq_true, if_true, if_false]
      exact b1
  refine ⟨?_, ?_, ?_, ?_⟩
  · obtain ⟨ops, hlog, hops, e, he⟩ := write_reg_bound_sent td LM3554_CONFIG_REG_1
      (config1_encode ((strobeStepReadConfig td val b).2.1.getD val) level)
      (strobeStepWriteFlash td level val sb b).bus (write_reg_ok_bound _ _ _ _ h2)
    have hg : (strobeStepReadConfig td val b).2.1.getD val = c := by rw [hc]; rfl
    rw [hg] at hlog hops he
    have h224 : LM3554_CONFIG_REG_1 % 256 = LM3554_CONFIG_REG_1 := rfl
    refine ⟨ops, ?_, ?_, ?_⟩
    · rw [strobe_store_steps]
      simp only [h1, h2, h3, h4, ne_eq, not_true_eq_false, if_false]
      show (lm3554_write_reg td LM3554_CONFIG_REG_1
        (config1_encode ((strobeStepReadConfig td val b).2.1.getD val) level)
        (strobeStepWriteFlash td level val sb b).bus).bus.log = _
      rw [hg]; exact hlog
    · intro op hop
      have := hops op hop
      simp only [h224, hbyte] at this
      exact this
    · refine ⟨e, ?_⟩
      simp only [h224, hbyte] at he
      exact he
  · by_cases h0 : level = 0
    · simp only [config1Byte, h0, if_true]; exact ⟨fun _ => trivial, fun _ => b3⟩
    · simp only [config1Byte, h0, if_false, b5]; decide
  · by_cases h0 : level = 0
    · simp only [config1Byte, h0, if_true]; exact b3
    · simp only [config1Byte, h0, if_false]; exact b5
  · by_cases h0 : level = 0
    · simp only [config1Byte, h0, if_true]; exact b4
    · simp only [config1Byte, h0, if_false]; exact b6

theorem C9_witness :
    (strobeStepReadConfig (simData samplePdata 0 0) 0 ⟨⟨sampleRegs, 0, []⟩, []⟩).1 = 0 ∧
    (strobeStepReadConfig (simData samplePdata 0 0) 0 ⟨⟨sampleRegs, 0, []⟩, []⟩).2.1
      = some 0x04 ∧
    0x04 < 256 ∧
    (strobeStepTorchDefault (simData samplePdata 0 0) 0 ⟨⟨sampleRegs, 0, []⟩, []⟩).err = 0 ∧
    (strobeStepReadFlash (simData samplePdata 0 0) 0 0 ⟨⟨sampleRegs, 0, []⟩, []⟩).1 = 0 ∧
    (strobeStepWriteFlash (simData samplePdata 0 0) 16 0 0
      ⟨⟨sampleRegs, 0, []⟩, []⟩).err = 0 ∧
    config1Byte 0x04 16 &&& 0xFB = 0x04 &&& 0xFB :=
  ⟨by decide, by decide, by decide, by decide, by decide, by decide,
    (C9_strobe_config1_byte (simData samplePdata 0 0) 16 0 0 0x04 ⟨⟨sampleRegs, 0, []⟩, []⟩
      (by decide) (by decide) (by decide) (by decide) (by decide) (by decide)).2.2.2⟩

/-- C10 (as amended): for every level below 2^31, whatever the transport does, when the
config-1 read, the torch-brightness default write, the flash-brightness read and the
flash-brightness write of `lm3554_strobe_store` return 0, the function returns 0 and the
cached `strobe_brightness` is the level, whatever the final config-1 write returns; the bus
is left as that write leaves it.  On the simulated chip, when that write returns an error
the config-1 register holds the value it had before the call. -/
theorem C10_strobe_final_write_swallowed :
    (∀ (σ : Type) (td : lm3554_data σ) (level val sb : Nat) (b : Bus σ),
      level < 2 ^ 31 →
      (strobeStepReadConfig td val b).1 = 0 →
      (strobeStepTorchDefault td val b).err = 0 →
      (strobeStepReadFlash td val sb b).1 = 0 →
      (strobeStepWriteFlash td level val sb b).err = 0 →
      (lm3554_strobe_store td (some level) val sb b).ret = 0 ∧
      (lm3554_strobe_store td (some level) val sb b).data.strobe_brightness = (level : Int) ∧
      (lm3554_strobe_store td (some level) val sb b).data.torch_brightness
        = td.torch_brightness ∧
      (lm3554_strobe_store td (some level) val sb b).bus
        = (strobeStepWriteConfig td level val sb b).bus) ∧
    (∀ (pdata : lm3554_platform_data) (s t : Int) (level val sb : Nat) (b : Bus SimChip),
      (strobeStepReadConfig (simData pdata s t) val b).1 = 0 →
      (strobeStepTorchDefault (simData pdata s t) val b).err = 0 →
      (strobeStepReadFlash (simData pdata s t) val sb b).1 = 0 →
      (strobeStepWriteFlash (simData pdata s t) level val sb b).err = 0 →
      (strobeStepWriteConfig (simData pdata s t) level val sb b).err ≠ 0 →
      (lm3554_strobe_store (simData pdata s t) (some level) val sb b).ret = 0 ∧
      (lm3554_strobe_store (simData pdata s t) (some level) val sb b).bus.chip.regs
          LM3554_CONFIG_REG_1
        = b.chip.regs LM3554_CONFIG_REG_1) := by
  constructor
  · intro σ td level val sb b hl h1 h2 h3 h4
    rw [strobe_store_steps]
    simp [h1, h2, h3, h4, toInt32_of_lt level hl]
  · intro pdata s t level val sb b h1 h2 h3 h4 h5
    have hc : (simData pdata s t).client = some simClient := rfl
    rw [strobe_store_steps]
    simp only [h1, h2, h3, h4, ne_eq, not_true_eq_false, if_false, true_and]
    have r1 := (sim_read_reg _ hc LM3554_CONFIG_REG_1 val b).1
    have w2 := (sim_write_reg _ hc LM3554_TORCH_BRIGHTNESS
      (simData pdata s t).pdata.torch_brightness_def
      (strobeStepReadConfig (simData pdata s t) val b).2.2).2
    have r3 := (sim_read_reg _ hc LM3554_FLASH_BRIGHTNESS sb
      (strobeStepTorchDefault (simData pdata s t) val b).bus).1
    have w4 := (sim_write_reg _ hc LM3554_FLASH_BRIGHTNESS
      (flash_encode ((strobeStepReadFlash (simData pdata s t) val sb b).2.1.getD sb) level)
      (strobeStepReadFlash (simData pdata s t) val sb b).2.2).2
    have w5 := (sim_write_reg _ hc LM3554_CONFIG_REG_1
      (config1_encode ((strobeStepReadConfig (simData pdata s t) val b).2.1.getD val) level)
      (strobeStepWriteFlash (simData pdata s t) level val sb b).bus).2
    rcases w5 with ⟨he, -⟩ | ⟨-, hw5⟩
    · exact absurd he h5
    rcases w4 with ⟨-, hw4⟩ | ⟨he, -⟩
    swap
    · exact absurd h4 he
    rcases w2 with ⟨-, hw2⟩ | ⟨he, -⟩
    swap
    · exact absurd h2 he
    show (lm3554_write_reg _ LM3554_CONFIG_REG_1 _
      (strobeStepWriteFlash (simData pdata s t) level val sb b).bus).bus.chip.regs _ = _
    rw [hw5]
    show (lm3554_write_reg _ LM3554_FLASH_BRIGHTNESS _
      (strobeStepReadFlash (simData pdata s t) val sb b).2.2).bus.chip.regs _ = _
    rw [hw4, Function.update_noteq (by decide)]
    show (lm3554_read_reg _ LM3554_FLASH_BRIGHTNESS (some sb)
      (strobeStepTorchDefault (simData pdata s t) val b).bus).2.2.chip.regs _ = _
    rw [r3]
    show (lm3554_write_reg _ LM3554_TORCH_BRIGHTNESS _
      (strobeStepReadConfig (simData pdata s t) val b).2.2).bus.chip.regs _ = _
    rw [hw2, Function.update_noteq (by decide)]
    exact congrFun r1 _

theorem C10_witness :
    (strobeStepReadConfig (simData samplePdata 0 0) 0
      ⟨⟨sampleRegs, 0, seventhCallOnFails⟩, []⟩).1 = 0 ∧
    (strobeStepTorchDefault (simData samplePdata 0 0) 0
      ⟨⟨sampleRegs, 0, seventhCallOnFails⟩, []⟩).err = 0 ∧
    (strobeStepReadFlash (simData samplePdata 0 0) 0 0
      ⟨⟨sampleRegs, 0, seventhCallOnFails⟩, []⟩).1 = 0 ∧
    (strobeStepWriteFlash (simData samplePdata 0 0) 48 0 0
      ⟨⟨sampleRegs, 0, seventhCallOnFails⟩, []⟩).err = 0 ∧
    (strobeStepWriteConfig (simData samplePdata 0 0) 48 0 0
      ⟨⟨sampleRegs, 0, seventhCallOnFails⟩, []⟩).err ≠ 0 ∧
    ((lm3554_strobe_store (simData samplePdata 0 0) (some 48) 0 0
        ⟨⟨sampleRegs, 0, seventhCallOnFails⟩, []⟩).ret = 0 ∧
      (lm3554_strobe_store (simData samplePdata 0 0) (some 48) 0 0
        ⟨⟨sampleRegs, 0, seventhCallOnFails⟩, []⟩).bus.chip.regs LM3554_CONFIG_REG_1
        = sampleRegs LM3554_CONFIG_REG_1) ∧
    (lm3554_strobe_store (simData samplePdata 0 0) (some 48) 0 0
      ⟨⟨sampleRegs, 0, seventhCallOnFails⟩, []⟩).data.strobe_brightness = 48 :=
  ⟨by decide, by decide, by decide, by decide, by decide,
    C10_strobe_final_write_swallowed.2 samplePdata 0 0 48 0 0
      ⟨⟨sampleRegs, 0, seventhCallOnFails⟩, []⟩
      (by decide) (by decide) (by decide) (by decide) (by decide),
    (C10_strobe_final_write_swallowed.1 SimChip (simData samplePdata 0 0) 48 0 0
      ⟨⟨sampleRegs, 0, seventhCallOnFails⟩, []⟩
      (by decide) (by decide) (by decide) (by decide) (by decide)).2.1⟩

/-- C10 (counterexample for a level beyond the `int` range): on the simulated chip with every bus operation
succeeding, level 2147483648 makes steps 1..5 succeed and the function return 0, yet the
cached `strobe_brightness`, an `int`, becomes -2147483648 and not the level. -/
theorem C10_counterexample :
    (strobeStepReadConfig (simData samplePdata 0 0) 0 ⟨⟨sampleRegs, 0, []⟩, []⟩).1 = 0 ∧
    (strobeStepTorchDefault (simData samplePdata 0 0) 0 ⟨⟨sampleRegs, 0, []⟩, []⟩).err = 0 ∧
    (strobeStepReadFlash (simData samplePdata 0 0) 0 0 ⟨⟨sampleRegs, 0, []⟩, []⟩).1 = 0 ∧
    (strobeStepWriteFlash (simData samplePdata 0 0) 2147483648 0 0
      ⟨⟨sampleRegs, 0, []⟩, []⟩).err = 0 ∧
    (lm3554_strobe_store (simData samplePdata 0 0) (some 2147483648) 0 0
      ⟨⟨sampleRegs, 0, []⟩, []⟩).ret = 0 ∧
    (lm3554_strobe_store (simData samplePdata 0 0) (some 2147483648) 0 0
      ⟨⟨sampleRegs, 0, []⟩, []⟩).data.strobe_brightness = -2147483648 ∧
    (lm3554_strobe_store (simData samplePdata 0 0) (some 2147483648) 0 0
      ⟨⟨sampleRegs, 0, []⟩, []⟩).data.strobe_brightness ≠ ((2147483648 : Nat) : Int) := by
  decide

/-- C11: whatever the transport does, when the config-1 read, the torch-brightness default
write, the flash-brightness read or the flash-brightness write of `lm3554_strobe_store`
returns an error, the function returns `-EIO`, the bus is exactly as the failing operation
left it (nothing further is issued) and the driver data, the cached `strobe_brightness`
included, is unchanged. -/
theorem C11_strobe_abort {σ : Type} (td : lm3554_data σ) (level val sb : Nat) (b : Bus σ) :
    ((strobeStepReadConfig td val b).1 ≠ 0 →
      lm3554_strobe_store td (some level) val sb b
        = { ret := - EIO, data := td, bus := (strobeStepReadConfig td val b).2.2 }) ∧
    ((strobeStepReadConfig td val b).1 = 0 → (strobeStepTorchDefault td val b).err ≠ 0 →
      lm3554_strobe_store td (some level) val sb b
        = { ret := - EIO, data := td, bus := (strobeStepTorchDefault td val b).bus }) ∧
    ((strobeStepReadConfig td val b).1 = 0 → (strobeStepTorchDefault td val b).err = 0 →
      (strobeStepReadFlash td val sb b).1 ≠ 0 →
      lm3554_strobe_store td (some level) val sb b
        = { ret := - EIO, data := td, bus := (strobeStepReadFlash td val sb b).2.2 }) ∧
    ((strobeStepReadConfig td val b).1 = 0 → (strobeStepTorchDefault td val b).err = 0 →
      (strobeStepReadFlash td val sb b).1 = 0 →
      (strobeStepWriteFlash td level val sb b).err ≠ 0 →
      lm3554_strobe_store td (some level) val sb b
        = { ret := - EIO, data := td, bus := (strobeStepWriteFlash td level val sb b).bus }) := by
  rw [strobe_store_steps]
  refine ⟨?_, ?_, ?_, ?_⟩
  · intro h1; simp [h1]
  · intro h1 h2; simp [h1, h2]
  · intro h1 h2 h3; simp [h1, h2, h3]
  · intro h1 h2 h3 h4; simp [h1, h2, h3, h4]

theorem C11_witness :
    (strobeStepReadConfig (simData samplePdata 7 9) 0
      ⟨⟨sampleRegs, 0, thirdCallOnFails⟩, []⟩).1 = 0 ∧
    (strobeStepTorchDefault (simData samplePdata 7 9) 0
      ⟨⟨sampleRegs, 0, thirdCallOnFails⟩, []⟩).err ≠ 0 ∧
    lm3554_strobe_store (simData samplePdata 7 9) (some 48) 0 0
        ⟨⟨sampleRegs, 0, thirdCallOnFails⟩, []⟩
      = { ret := - EIO, data := simData samplePdata 7 9,
          bus := (strobeStepTorchDefault (simData samplePdata 7 9) 0
            ⟨⟨sampleRegs, 0, thirdCallOnFails⟩, []⟩).bus } :=
  ⟨by decide, by decide,
    (C11_strobe_abort (simData samplePdata 7 9) 48 0 0
      ⟨⟨sampleRegs, 0, thirdCallOnFails⟩, []⟩).2.1 (by decide) (by decide)⟩

/-- The result of `lm3554_strobe_err_show` in terms of its two steps. -/
theorem strobe_err_show_steps {σ : Type} (sizeof_buf : Nat) (td : lm3554_data σ)
    (buf : String) (ef : Nat) (b : Bus σ) :
    lm3554_strobe_err_show sizeof_buf td buf ef b
      = if (errStepRead td ef b).1 ≠ 0 then
          { ret := - EIO, text := buf, bus := (errStepRead td ef b).2.2 }
        else if (errStepClear td ef b).err ≠ 0 then
          { ret := - EIO, text := buf, bus := (errStepClear td ef b).bus }
        else
          { ret := sizeof_buf,
            text := toString (((errStepRead td ef b).2.1.getD ef) &&& 0xbf) ++ "\n",
            bus := (errStepClear td ef b).bus } := by
  rfl

/-- C13: whatever the transport does, when the flag-register read returns an error
`lm3554_strobe_err_show` returns `-EIO`, leaves the output buffer as it was and ends with
that read (no clearing write is attempted); when the read returns 0 and the clearing write
of `0x00` returns an error it returns `-EIO` and leaves the output buffer as it was. -/
theorem C13_strobe_err_show_failures {σ : Type} (sizeof_buf : Nat) (td : lm3554_data σ)
    (buf : String) (ef : Nat) (b : Bus σ) :
    ((errStepRead td ef b).1 ≠ 0 →
      lm3554_strobe_err_show sizeof_buf td buf ef b
        = { ret := - EIO, text := buf, bus := (errStepRead td ef b).2.2 } ∧
      ∃ ops : List BusOp,
        (lm3554_strobe_err_show sizeof_buf td buf ef b).bus.log = b.log ++ ops ∧
        isReadTrace LM3554_FLAG_REG ops) ∧
    ((errStepRead td ef b).1 = 0 → (errStepClear td ef b).err ≠ 0 →
      lm3554_strobe_err_show sizeof_buf td buf ef b
        = { ret := - EIO, text := buf, bus := (errStepClear td ef b).bus }) := by
  rw [strobe_err_show_steps]
  refine ⟨?_, ?_⟩
  · intro h1
    have hres : (if (errStepRead td ef b).1 ≠ 0 then
          ({ ret := - EIO, text := buf, bus := (errStepRead td ef b).2.2 } : ShowResult σ)
        else if (errStepClear td ef b).err ≠ 0 then
          { ret := - EIO, text := buf, bus := (errStepClear td ef b).bus }
        else
          { ret := sizeof_buf,
            text := toString (((errStepRead td ef b).2.1.getD ef) &&& 0xbf) ++ "\n",
            bus := (errStepClear td ef b).bus })
        = { ret := - EIO, text := buf, bus := (errStepRead td ef b).2.2 } := by
      simp [h1]
    rw [hres]
    exact ⟨rfl, read_reg_ops td LM3554_FLAG_REG (some ef) b⟩
  · intro h1 h2; simp [h1, h2]

theorem C13_witness :
    (errStepRead (simData samplePdata 0 0) 0 ⟨⟨sampleRegs, 0, firstFiveFail⟩, []⟩).1 ≠ 0 ∧
    lm3554_strobe_err_show 4 (simData samplePdata 0 0) "old" 0
        ⟨⟨sampleRegs, 0, firstFiveFail⟩, []⟩
      = { ret := - EIO, text := "old",
          bus := (errStepRead (simData samplePdata 0 0) 0
            ⟨⟨sampleRegs, 0, firstFiveFail⟩, []⟩).2.2 } :=
  ⟨by decide,
    ((C13_strobe_err_show_failures 4 (simData samplePdata 0 0) "old" 0
      ⟨⟨sampleRegs, 0, firstFiveFail⟩, []⟩).1 (by decide)).1⟩

/-- C15: `lm3554_read_reg` with an absent output target returns `-EINVAL`; with a target
present and no client bound it returns `-EUNATCH` and the target keeps its content;
`lm3554_write_reg` with no client bound returns `-EUNATCH`.  In each case the bus, state
and trace, is exactly as before: no transport operation is performed. -/
theorem C15_unbound_and_invalid_arguments {σ : Type} (td : lm3554_data σ) (reg val v : Nat)
    (b : Bus σ) :
    lm3554_read_reg td reg none b = (- EINVAL, none, b) ∧
    (td.client = none → lm3554_read_reg td reg (some v) b = (- EUNATCH, some v, b)) ∧
    (td.client = none → lm3554_write_reg td reg val b = { err := - EUNATCH, bus := b }) := by
  refine ⟨rfl, ?_, ?_⟩
  · intro h; simp [lm3554_read_reg, h]
  · intro h; simp [lm3554_write_reg, h]

theorem C15_witness :
    lm3554_read_reg (⟨none, samplePdata, 0, 0⟩ : lm3554_data SimChip) LM3554_FLAG_REG
        (some 0x33) ⟨⟨sampleRegs, 0, []⟩, []⟩
      = (- EUNATCH, some 0x33, ⟨⟨sampleRegs, 0, []⟩, []⟩) :=
  (C15_unbound_and_invalid_arguments (⟨none, samplePdata, 0, 0⟩ : lm3554_data SimChip)
    LM3554_FLAG_REG 0 0x33 ⟨⟨sampleRegs, 0, []⟩, []⟩).2.1 rfl

/-- The fault read-and-clear sequence on the simulated chip without faults. -/
theorem sim_strobe_err_show_ok (sizeof_buf : Nat) (td : lm3554_data SimChip)
    (h : td.client = some simClient) (buf : String) (ef : Nat) (regs : Nat → Nat) (ptr : Nat)
    (log : List BusOp) :
    lm3554_strobe_err_show sizeof_buf td buf ef ⟨⟨regs, ptr, []⟩, log⟩
      = { ret := sizeof_buf,
          text := toString ((regs 0xD0 % 256) &&& 0xbf) ++ "\n",
          bus := ⟨⟨Function.update regs 0xD0 0x00, 0xD0, []⟩,
            log ++ [BusOp.send [0xD0] 1 1, BusOp.recv 1 1, BusOp.send [0xD0, 0x00] 2 2]⟩ } := by
  have e : ((208 : Nat) &&& 255) = 208 := by decide
  simp [lm3554_strobe_err_show, sim_read_reg_ok td h, sim_write_reg_ok td h,
    LM3554_FLAG_REG, e]

set_option maxRecDepth 100000 in
theorem flag_bits : ∀ f < 256,
    (f % 256) &&& 0xbf = f &&& 0xBF ∧ (f &&& 0xBF) &&& 0x40 = 0 := by
  decide

/-- C12: on the simulated chip with all bus operations succeeding, for every raw flag
register content `f`, `lm3554_strobe_err_show` reads register 0xD0, then writes `0x00` to
it, and prints `f AND 0xBF`, a value whose bit `0x40` is 0; the register then holds 0 and a
second call right after prints 0. -/
theorem C12_fault_read_and_clear (sizeof_buf : Nat) (pdata : lm3554_platform_data)
    (sb tb : Int) (buf : String) (f ef ef2 : Nat) (regs : Nat → Nat) (ptr : Nat)
    (log : List BusOp) (hf : regs LM3554_FLAG_REG = f) (hf8 : f < 256) :
    (lm3554_strobe_err_show sizeof_buf (simData pdata sb tb) buf ef
      ⟨⟨regs, ptr, []⟩, log⟩).bus.log
      = log ++ [BusOp.send [LM3554_FLAG_REG] 1 1, BusOp.recv 1 1,
          BusOp.send [LM3554_FLAG_REG, 0x00] 2 2] ∧
    (lm3554_strobe_err_show sizeof_buf (simData pdata sb tb) buf ef
      ⟨⟨regs, ptr, []⟩, log⟩).text = toString (f &&& 0xBF) ++ "\n" ∧
    (f &&& 0xBF) &&& 0x40 = 0 ∧
    (lm3554_strobe_err_show sizeof_buf (simData pdata sb tb) buf ef
      ⟨⟨regs, ptr, []⟩, log⟩).bus.chip.regs LM3554_FLAG_REG = 0 ∧
    (lm3554_strobe_err_show sizeof_buf (simData pdata sb tb)
      (lm3554_strobe_err_show sizeof_buf (simData pdata sb tb) buf ef
        ⟨⟨regs, ptr, []⟩, log⟩).text ef2
      (lm3554_strobe_err_show sizeof_buf (simData pdata sb tb) buf ef
        ⟨⟨regs, ptr, []⟩, log⟩).bus).text = toString 0 ++ "\n" := by
  obtain ⟨b1, b2⟩ := flag_bits f hf8
  have hf' : regs 0xD0 = f := hf
  rw [sim_strobe_err_show_ok _ _ rfl, hf', b1]
  refine ⟨rfl, rfl, b2, ?_, ?_⟩
  · show Function.update regs 0xD0 0x00 0xD0 = 0
    rw [Function.update_same]
  · rw [sim_strobe_err_show_ok _ _ rfl]
    show toString ((Function.update regs 0xD0 0x00 0xD0 % 256) &&& 0xbf) ++ "\n" = _
    rw [Function.update_same]
    rfl

theorem C12_witness :
    sampleRegs LM3554_FLAG_REG = 0x04 ∧ 0x04 < 256 ∧
    (lm3554_strobe_err_show 4 (simData samplePdata 0 0) "" 0
      ⟨⟨sampleRegs, 0, []⟩, []⟩).bus.chip.regs LM3554_FLAG_REG = 0 :=
  ⟨by decide, by decide,
    (C12_fault_read_and_clear 4 samplePdata 0 0 "" 0x04 0 0 sampleRegs 0 [] (by decide)
      (by decide)).2.2.2.1⟩

set_option maxRecDepth 100000 in
theorem flash_bits : ∀ r < 256, ∀ q < 16,
    ((r % 256 &&& 0x83) ||| (q <<< 3)) % 256 % 256 = (r &&& 0x83) ||| (q <<< 3) ∧
    ((r &&& 0x83) ||| (q <<< 3)) &&& 0x83 = r &&& 0x83 := by
  decide

/-- C17: on the simulated chip with all bus operations succeeding, for every level in
0..255, every config-1 value `c`, every flash-brightness value `r` and every torch default
`d`, the trace `lm3554_strobe_store` adds is exactly: read of 0xE0; write `(0xA0, d)`; read of
0xB0; write `(0xB0, (r AND 0x83) OR ((level / 16) << 3))`; write to 0xE0.  The
flash-brightness byte keeps bits 7, 1 and 0 of `r`. -/
theorem C17_strobe_sequence (pdata : lm3554_platform_data) (sb tb : Int)
    (level val sb0 c r d : Nat) (regs : Nat → Nat) (ptr : Nat) (log : List BusOp)
    (hl : level ≤ 255) (hc : regs LM3554_CONFIG_REG_1 = c) (hc8 : c < 256)
    (hr : regs LM3554_FLASH_BRIGHTNESS = r) (hr8 : r < 256)
    (hd : pdata.torch_brightness_def = d) (hd8 : d < 256) :
    (lm3554_strobe_store (simData pdata sb tb) (some level) val sb0
      ⟨⟨regs, ptr, []⟩, log⟩).bus.log
      = log ++ [BusOp.send [LM3554_CONFIG_REG_1] 1 1, BusOp.recv 1 1,
          BusOp.send [LM3554_TORCH_BRIGHTNESS, d] 2 2,
          BusOp.send [LM3554_FLASH_BRIGHTNESS] 1 1, BusOp.recv 1 1,
          BusOp.send [LM3554_FLASH_BRIGHTNESS, (r &&& 0x83) ||| ((level / 16) <<< 3)] 2 2,
          BusOp.send [LM3554_CONFIG_REG_1, config1Byte c level] 2 2] ∧
    ((r &&& 0x83) ||| ((level / 16) <<< 3)) &&& 0x83 = r &&& 0x83 := by
  have hq : level / 16 < 16 := by omega
  obtain ⟨f1, f2⟩ := flash_bits r hr8 (level / 16) hq
  obtain ⟨b1, b2, -, -, -, -⟩ := config1_bits c hc8
  have hc' : regs 0xE0 = c := hc
  have hr' : regs 0xB0 = r := hr
  have hd' : (simData pdata sb tb).pdata.torch_brightness_def % 256 = d := by
    show pdata.torch_brightness_def % 256 = d
    rw [hd]; exact Nat.mod_eq_of_lt hd8
  have hcb : config1_encode (c % 256) level % 256 = config1Byte c level := by
    rw [Nat.mod_eq_of_lt hc8]
    by_cases h0 : level = 0
    · simp only [config1_encode, config1Byte, h0, ne_eq, not_true_eq_false, if_false, if_true]
      exact b2
    · simp only [config1_encode, config1Byte, h0, ne_eq, not_false_eq_true, if_true, if_false]
      exact b1
  have hfb : flash_encode (r % 256) level % 256 = (r &&& 0x83) ||| ((level / 16) <<< 3) := f1
  rw [sim_strobe_store_ok _ rfl, hc', hr', hd', hcb, hfb]
  exact ⟨rfl, f2⟩

theorem C17_witness :
    (48 : Nat) ≤ 255 ∧ sampleRegs LM3554_CONFIG_REG_1 = 0x04 ∧ 0x04 < 256 ∧
    sampleRegs LM3554_FLASH_BRIGHTNESS = 0x04 ∧
    samplePdata.torch_brightness_def = 0x50 ∧ 0x50 < 256 ∧
    (lm3554_strobe_store (simData samplePdata 0 0) (some 48) 0 0
      ⟨⟨sampleRegs, 0, []⟩, []⟩).bus.log
      = [] ++ [BusOp.send [LM3554_CONFIG_REG_1] 1 1, BusOp.recv 1 1,
          BusOp.send [LM3554_TORCH_BRIGHTNESS, 0x50] 2 2,
          BusOp.send [LM3554_FLASH_BRIGHTNESS] 1 1, BusOp.recv 1 1,
          BusOp.send [LM3554_FLASH_BRIGHTNESS, (0x04 &&& 0x83) ||| ((48 / 16) <<< 3)] 2 2,
          BusOp.send [LM3554_CONFIG_REG_1, config1Byte 0x04 48] 2 2] :=
  ⟨by decide, by decide, by decide, by decide, by decide, by decide,
    (C17_strobe_sequence samplePdata 0 0 48 0 0 0x04 0x04 0x50 sampleRegs 0 [] (by decide)
      (by decide) (by decide) (by decide) (by decide) (by decide) (by decide)).1⟩

set_option maxRecDepth 100000 in
theorem torch256_bits : ∀ r < 256,
    (((r % 256) &&& 0xc4 ||| ((256 / 32) <<< 3)) % 256 ||| 0x02) % 256
        = ((r &&& 0xC4) ||| ((256 / 32) <<< 3) ||| 0x02) % 256 ∧
    (r &&& 0x40 = 0 →
      (((r &&& 0xC4) ||| ((256 / 32) <<< 3) ||| 0x02) % 256) &&& 0xC4 ≠ r &&& 0xC4) := by
  decide

/-- C19: on the simulated chip with all bus operations succeeding, for every previous
torch-brightness value `r` whose bit 6 is clear, `lm3554_torch_store` with level 256 writes
to 0xA0 the 8-bit truncation of `(r AND 0xC4) OR ((256 / 32) << 3) OR 0x02`, a byte that
differs from `r` in a bit of the keep-mask 0xC4; for every level below 256 the specified
byte keeps the bits of mask 0xC4. -/
theorem C19_torch_level_256_corrupts_kept_bits (pdata : lm3554_platform_data) (sb tb : Int)
    (r v0 : Nat) (regs : Nat → Nat) (ptr : Nat) (log : List BusOp)
    (hr : regs LM3554_TORCH_BRIGHTNESS = r) (hr8 : r < 256) (h6 : r &&& 0x40 = 0) :
    (lm3554_torch_store (simData pdata sb tb) (some 256) v0 ⟨⟨regs, ptr, []⟩, log⟩).ret = 0 ∧
    (lm3554_torch_store (simData pdata sb tb) (some 256) v0 ⟨⟨regs, ptr, []⟩, log⟩).bus.log
      = log ++ [BusOp.send [LM3554_TORCH_BRIGHTNESS] 1 1, BusOp.recv 1 1,
          BusOp.send [LM3554_CONFIG_REG_2, 0x08] 2 2,
          BusOp.send [LM3554_TORCH_BRIGHTNESS,
            ((r &&& 0xC4) ||| ((256 / 32) <<< 3) ||| 0x02) % 256] 2 2] ∧
    (lm3554_torch_store (simData pdata sb tb) (some 256) v0
      ⟨⟨regs, ptr, []⟩, log⟩).bus.chip.regs LM3554_TORCH_BRIGHTNESS
      = ((r &&& 0xC4) ||| ((256 / 32) <<< 3) ||| 0x02) % 256 ∧
    (((r &&& 0xC4) ||| ((256 / 32) <<< 3) ||| 0x02) % 256) &&& 0xC4 ≠ r &&& 0xC4 ∧
    (∀ level, level < 256 → torchByte r level &&& 0xC4 = r &&& 0xC4) := by
  obtain ⟨c1, c2⟩ := torch256_bits r hr8
  have hr' : regs 0xA0 = r := hr
  have hbyte : (if (256 : Nat) ≠ 0 then
        (((regs 0xA0 % 256) &&& 0xc4 ||| ((256 / 32) <<< 3)) % 256) ||| 0x02
      else (regs 0xA0 % 256) &&& 0xc4) % 256
      = ((r &&& 0xC4) ||| ((256 / 32) <<< 3) ||| 0x02) % 256 := by
    rw [hr']
    simp only [ne_eq, show ¬ ((256 : Nat) = 0) by decide, not_false_eq_true, if_true]
    exact c1
  rw [sim_torch_store_ok _ rfl, hbyte]
  refine ⟨rfl, rfl, ?_, c2 h6, ?_⟩
  · simp only [LM3554_TORCH_BRIGHTNESS, Function.update_same]
  · intro level hl
    have hq : level / 32 < 8 := by omega
    obtain ⟨-, -, b3, b4, -, -, -, -⟩ := torch_bits r hr8 (level / 32) hq
    by_cases h0 : level = 0
    · simp only [torchByte, h0, if_true]; exact b4
    · simp only [torchByte, h0, if_false]; exact b3

theorem C19_witness :
    lowRegs LM3554_TORCH_BRIGHTNESS = 0x04 ∧ 0x04 < 256 ∧ 0x04 &&& 0x40 = 0 ∧
    (lm3554_torch_store (simData samplePdata 0 0) (some 256) 0
      ⟨⟨lowRegs, 0, []⟩, []⟩).bus.chip.regs
        LM3554_TORCH_BRIGHTNESS
      = ((0x04 &&& 0xC4) ||| ((256 / 32) <<< 3) ||| 0x02) % 256 ∧
    (((0x04 &&& 0xC4) ||| ((256 / 32) <<< 3) ||| 0x02) % 256) &&& 0xC4 ≠ 0x04 &&& 0xC4 :=
  ⟨by decide, by decide, by decide,
    (C19_torch_level_256_corrupts_kept_bits samplePdata 0 0 0x04 0
      lowRegs 0 [] (by decide) (by decide)
      (by decide)).2.2.1,
    (C19_torch_level_256_corrupts_kept_bits samplePdata 0 0 0x04 0
      lowRegs 0 [] (by decide) (by decide)
      (by decide)).2.2.2.1⟩

/-- C20 (as amended): `lm3554_strobe_store` never modifies the cached `torch_brightness`,
whatever the transport does.  On the simulated chip without faults, a `lm3554_torch_store`
of a level `L` below 2^31 followed by a `lm3554_strobe_store` both return 0; afterwards the
cached `torch_brightness` is still `L`, while register 0xA0 holds the torch-brightness
default: it holds the byte `lm3554_torch_store` had written for `L` only if the default is
that very byte. -/
theorem C20_strobe_leaves_torch_cache_stale :
    (∀ (σ : Type) (td : lm3554_data σ) (buf : Option Nat) (val sb0 : Nat) (b : Bus σ),
      (lm3554_strobe_store td buf val sb0 b).data.torch_brightness = td.torch_brightness) ∧
    (∀ (pdata : lm3554_platform_data) (sb tb : Int) (L S v0 val sb0 : Nat)
        (regs : Nat → Nat) (ptr : Nat) (log : List BusOp),
      L < 2 ^ 31 →
      (lm3554_torch_store (simData pdata sb tb) (some L) v0 ⟨⟨regs, ptr, []⟩, log⟩).ret = 0 ∧
      (lm3554_strobe_store
        (lm3554_torch_store (simData pdata sb tb) (some L) v0 ⟨⟨regs, ptr, []⟩, log⟩).data
        (some S) val sb0
        (lm3554_torch_store (simData pdata sb tb) (some L) v0
          ⟨⟨regs, ptr, []⟩, log⟩).bus).ret = 0 ∧
      (lm3554_strobe_store
        (lm3554_torch_store (simData pdata sb tb) (some L) v0 ⟨⟨regs, ptr, []⟩, log⟩).data
        (some S) val sb0
        (lm3554_torch_store (simData pdata sb tb) (some L) v0
          ⟨⟨regs, ptr, []⟩, log⟩).bus).data.torch_brightness = (L : Int) ∧
      (lm3554_torch_store (simData pdata sb tb) (some L) v0
          ⟨⟨regs, ptr, []⟩, log⟩).bus.chip.regs LM3554_TORCH_BRIGHTNESS
        = torch_encode (regs LM3554_TORCH_BRIGHTNESS % 256) L % 256 ∧
      (lm3554_strobe_store
        (lm3554_torch_store (simData pdata sb tb) (some L) v0 ⟨⟨regs, ptr, []⟩, log⟩).data
        (some S) val sb0
        (lm3554_torch_store (simData pdata sb tb) (some L) v0
          ⟨⟨regs, ptr, []⟩, log⟩).bus).bus.chip.regs LM3554_TORCH_BRIGHTNESS
        = pdata.torch_brightness_def % 256 ∧
      (pdata.torch_brightness_def % 256
          ≠ torch_encode (regs LM3554_TORCH_BRIGHTNESS % 256) L % 256 →
        (lm3554_strobe_store
          (lm3554_torch_store (simData pdata sb tb) (some L) v0 ⟨⟨regs, ptr, []⟩, log⟩).data
          (some S) val sb0
          (lm3554_torch_store (simData pdata sb tb) (some L) v0
            ⟨⟨regs, ptr, []⟩, log⟩).bus).bus.chip.regs LM3554_TORCH_BRIGHTNESS
          ≠ (lm3554_torch_store (simData pdata sb tb) (some L) v0
            ⟨⟨regs, ptr, []⟩, log⟩).bus.chip.regs LM3554_TORCH_BRIGHTNESS)) := by
  constructor
  · intro σ td buf val sb0 b
    cases buf with
    | none => rfl
    | some level =>
      rw [strobe_store_steps]
      repeat' split
      all_goals rfl
  · intro pdata sb tb L S v0 val sb0 regs ptr log hL
    have hT := sim_torch_store_ok (simData pdata sb tb) rfl L v0 regs ptr log
    have henc : (if L ≠ 0 then
          (((regs 0xA0 % 256) &&& 0xc4 ||| ((L / 32) <<< 3)) % 256) ||| 0x02
        else (regs 0xA0 % 256) &&& 0xc4) % 256
        = torch_encode (regs LM3554_TORCH_BRIGHTNESS % 256) L % 256 := rfl
    rw [henc] at hT
    rw [hT]
    have hS := sim_strobe_store_ok
      ({ simData pdata sb tb with torch_brightness := toInt32 L }) rfl S val sb0
      (Function.update (Function.update regs 0xF0 0x08) 0xA0
        (torch_encode (regs LM3554_TORCH_BRIGHTNESS % 256) L % 256)) 0xA0
      (log ++ [BusOp.send [0xA0] 1 1, BusOp.recv 1 1, BusOp.send [0xF0, 0x08] 2 2,
        BusOp.send [0xA0, torch_encode (regs LM3554_TORCH_BRIGHTNESS % 256) L % 256] 2 2])
    rw [hS]
    have hreg : Function.update (Function.update (Function.update
          (Function.update (Function.update regs 0xF0 0x08) 0xA0
            (torch_encode (regs LM3554_TORCH_BRIGHTNESS % 256) L % 256))
          0xA0 (pdata.torch_brightness_def % 256))
          0xB0 (flash_encode ((Function.update (Function.update regs 0xF0 0x08) 0xA0
            (torch_encode (regs LM3554_TORCH_BRIGHTNESS % 256) L % 256)) 0xB0 % 256) S % 256))
          0xE0 (config1_encode ((Function.update (Function.update regs 0xF0 0x08) 0xA0
            (torch_encode (regs LM3554_TORCH_BRIGHTNESS % 256) L % 256)) 0xE0 % 256) S % 256)
          0xA0 = pdata.torch_brightness_def % 256 := by
      rw [Function.update_noteq (by decide), Function.update_noteq (by decide),
        Function.update_same]
    have hTreg : Function.update (Function.update regs 0xF0 0x08) 0xA0
        (torch_encode (regs LM3554_TORCH_BRIGHTNESS % 256) L % 256) LM3554_TORCH_BRIGHTNESS
        = torch_encode (regs LM3554_TORCH_BRIGHTNESS % 256) L % 256 := by
      simp only [LM3554_TORCH_BRIGHTNESS, Function.update_same]
    refine ⟨rfl, rfl, toInt32_of_lt L hL, hTreg, hreg, ?_⟩
    intro hne heq
    exact hne (hreg.symm.trans (heq.trans hTreg))

theorem C20_witness :
    (64 : Nat) < 2 ^ 31 ∧
    (lm3554_strobe_store
      (lm3554_torch_store (simData samplePdata 0 0) (some 64) 0 ⟨⟨sampleRegs, 0, []⟩, []⟩).data
      (some 16) 0 0
      (lm3554_torch_store (simData samplePdata 0 0) (some 64) 0
        ⟨⟨sampleRegs, 0, []⟩, []⟩).bus).data.torch_brightness = 64 ∧
    (lm3554_strobe_store
      (lm3554_torch_store (simData samplePdata 0 0) (some 64) 0 ⟨⟨sampleRegs, 0, []⟩, []⟩).data
      (some 16) 0 0
      (lm3554_torch_store (simData samplePdata 0 0) (some 64) 0
        ⟨⟨sampleRegs, 0, []⟩, []⟩).bus).bus.chip.regs LM3554_TORCH_BRIGHTNESS
      = samplePdata.torch_brightness_def % 256 :=
  ⟨by decide,
    (C20_strobe_leaves_torch_cache_stale.2 samplePdata 0 0 64 16 0 0 0 sampleRegs 0 []
      (by decide)).2.2.1,
    (C20_strobe_leaves_torch_cache_stale.2 samplePdata 0 0 64 16 0 0 0 sampleRegs 0 []
      (by decide)).2.2.2.2.1⟩

/-- C20 (counterexample for a level beyond the `int` range and a coinciding default): on the
simulated chip without faults, with torch level 2147483648 and torch-brightness default
`0xC6`, both calls return 0, yet the cached `torch_brightness` is -2147483648 and not the
level, and register 0xA0 holds exactly the byte that had been written for that level. -/
theorem C20_counterexample :
    (lm3554_torch_store (simData stalePdata 0 0) (some 2147483648) 0
      ⟨⟨sampleRegs, 0, []⟩, []⟩).ret = 0 ∧
    (lm3554_strobe_store
      (lm3554_torch_store (simData stalePdata 0 0) (some 2147483648) 0
        ⟨⟨sampleRegs, 0, []⟩, []⟩).data
      (some 16) 0 0
      (lm3554_torch_store (simData stalePdata 0 0) (some 2147483648) 0
        ⟨⟨sampleRegs, 0, []⟩, []⟩).bus).ret = 0 ∧
    (lm3554_strobe_store
      (lm3554_torch_store (simData stalePdata 0 0) (some 2147483648) 0
        ⟨⟨sampleRegs, 0, []⟩, []⟩).data
      (some 16) 0 0
      (lm3554_torch_store (simData stalePdata 0 0) (some 2147483648) 0
        ⟨⟨sampleRegs, 0, []⟩, []⟩).bus).data.torch_brightness = -2147483648 ∧
    (lm3554_strobe_store
      (lm3554_torch_store (simData stalePdata 0 0) (some 2147483648) 0
        ⟨⟨sampleRegs, 0, []⟩, []⟩).data
      (some 16) 0 0
      (lm3554_torch_store (simData stalePdata 0 0) (some 2147483648) 0
        ⟨⟨sampleRegs, 0, []⟩, []⟩).bus).data.torch_brightness
      ≠ ((2147483648 : Nat) : Int) ∧
    (lm3554_strobe_store
      (lm3554_torch_store (simData stalePdata 0 0) (some 2147483648) 0
        ⟨⟨sampleRegs, 0, []⟩, []⟩).data
      (some 16) 0 0
      (lm3554_torch_store (simData stalePdata 0 0) (some 2147483648) 0
        ⟨⟨sampleRegs, 0, []⟩, []⟩).bus).bus.chip.regs LM3554_TORCH_BRIGHTNESS
      = (lm3554_torch_store (simData stalePdata 0 0) (some 2147483648) 0
        ⟨⟨sampleRegs, 0, []⟩, []⟩).bus.chip.regs LM3554_TORCH_BRIGHTNESS := by
  decide

theorem onlyRegisterOps_refl {σ : Type} (b : Bus σ) : onlyRegisterOps b b :=
  ⟨[], by simp, by intro op h; simp at h⟩

theorem onlyRegisterOps_trans {σ : Type} {b1 b2 b3 : Bus σ} (h12 : onlyRegisterOps b1 b2)
    (h23 : onlyRegisterOps b2 b3) : onlyRegisterOps b1 b3 := by
  obtain ⟨o1, hl1, hv1⟩ := h12
  obtain ⟨o2, hl2, hv2⟩ := h23
  refine ⟨o1 ++ o2, by rw [hl2, hl1, List.append_assoc], ?_⟩
  intro op hop
  rcases List.mem_append.1 hop with h | h
  · exact hv1 op h
  · exact hv2 op h

theorem validRegs_byte (reg : Nat) (h : reg ∈ validRegs) :
    reg % 256 = reg ∧ (reg % 256) &&& 0xFF = reg := by
  simp only [validRegs, List.mem_cons, List.mem_singleton, List.not_mem_nil, or_false] at h
  rcases h with rfl | rfl | rfl | rfl | rfl | rfl | rfl | rfl <;> decide

/-- A read of a valid register only issues operations of the register protocol. -/
theorem read_reg_valid {σ : Type} (td : lm3554_data σ) (reg : Nat) (val : Option Nat)
    (b : Bus σ) (h : reg ∈ validRegs) :
    onlyRegisterOps b (lm3554_read_reg td reg val b).2.2 := by
  obtain ⟨ops, hlog, hops⟩ := read_reg_ops td reg val b
  refine ⟨ops, hlog, ?_⟩
  intro op hop
  rcases hops op hop with h1 | ⟨e, h1⟩ | ⟨e, h1⟩
  · exact Or.inl h1
  · rw [(validRegs_byte reg h).2] at h1
    exact Or.inr (Or.inr (Or.inl ⟨reg, e, h, h1⟩))
  · exact Or.inr (Or.inl ⟨e, h1⟩)

/-- A write to a valid register only issues operations of the register protocol. -/
theorem write_reg_valid {σ : Type} (td : lm3554_data σ) (reg val : Nat) (b : Bus σ)
    (h : reg ∈ validRegs) :
    onlyRegisterOps b (lm3554_write_reg td reg val b).bus := by
  obtain ⟨ops, hlog, hops⟩ := write_reg_ops td reg val b
  refine ⟨ops, hlog, ?_⟩
  intro op hop
  rcases hops op hop with h1 | ⟨e, h1⟩
  · exact Or.inl h1
  · simp only [(validRegs_byte reg h).1] at h1
    exact Or.inr (Or.inr (Or.inr ⟨reg, val % 256, e, h, Nat.mod_lt _ (by decide), h1⟩))

theorem writeInOrder_valid {σ : Type} (td : lm3554_data σ) :
    ∀ (seq : List (Nat × Nat)) (b : Bus σ), (∀ p ∈ seq, p.1 ∈ validRegs) →
      onlyRegisterOps b (writeInOrder td seq b).2 := by
  intro seq
  induction seq with
  | nil => intro b _; exact onlyRegisterOps_refl b
  | cons p rest ih =>
    intro b hv
    have hw := write_reg_valid td p.1 p.2 b (hv p (List.mem_cons_self _ _))
    by_cases he : (lm3554_write_reg td p.1 p.2 b).err = 0
    · simp only [writeInOrder, he, ne_eq, not_true_eq_false, if_false]
      exact onlyRegisterOps_trans hw
        (ih _ (fun q hq => hv q (List.mem_cons_of_mem _ hq)))
    · simp only [writeInOrder, he, ne_eq, not_false_eq_true, if_true]
      exact hw

theorem init_registers_bus {σ : Type} (td : lm3554_data σ) (b : Bus σ) :
    (lm3554_init_registers td b).bus = (writeInOrder td (initSequence td.pdata) b).2 := by
  simp only [lm3554_init_registers, initSequence, writeInOrder]
  repeat' split
  all_goals simp_all

/-- The result of `lm3554_torch_brightness_set` in terms of the steps of the torch
sequence. -/
theorem torch_brightness_set_steps {σ : Type} (td : lm3554_data σ) (level v0 : Nat)
    (b : Bus σ) :
    lm3554_torch_brightness_set td level v0 b
      = if (torchStepRead td v0 b).1 ≠ 0 then
          { data := td, bus := (torchStepRead td v0 b).2.2 }
        else if (torchStepConfig td v0 b).err ≠ 0 then
          { data := td, bus := (torchStepConfig td v0 b).bus }
        else if (torchStepWrite td level v0 b).err ≠ 0 then
          { data := td, bus := (torchStepWrite td level v0 b).bus }
        else
          { data := td, bus := (torchStepWrite td level v0 b).bus } := by
  rfl

theorem validRegs_mem :
    LM3554_TORCH_BRIGHTNESS ∈ validRegs ∧ LM3554_FLASH_BRIGHTNESS ∈ validRegs ∧
    LM3554_FLAG_REG ∈ validRegs ∧ LM3554_CONFIG_REG_1 ∈ validRegs ∧
    LM3554_CONFIG_REG_2 ∈ validRegs := by
  decide

/-- C14: whatever the inputs and whatever the transport does, everything
`lm3554_init_registers`, `lm3554_torch_store`, `lm3554_torch_brightness_set`,
`lm3554_strobe_store`, `lm3554_strobe_err_show` and `lm3554_flash_brightness_set` add to the
trace is a retry pause, a one byte receive, a one byte send of one of the eight register
addresses (a read) or a single two byte send of one of the eight register addresses followed
by the value byte (a write). -/
theorem C14_address_invariant :
    (∀ (σ : Type) (td : lm3554_data σ) (b : Bus σ),
      onlyRegisterOps b (lm3554_init_registers td b).bus) ∧
    (∀ (σ : Type) (td : lm3554_data σ) (buf : Option Nat) (val : Nat) (b : Bus σ),
      onlyRegisterOps b (lm3554_torch_store td buf val b).bus) ∧
    (∀ (σ : Type) (td : lm3554_data σ) (value val : Nat) (b : Bus σ),
      onlyRegisterOps b (lm3554_torch_brightness_set td value val b).bus) ∧
    (∀ (σ : Type) (td : lm3554_data σ) (buf : Option Nat) (val sb : Nat) (b : Bus σ),
      onlyRegisterOps b (lm3554_strobe_store td buf val sb b).bus) ∧
    (∀ (σ : Type) (sizeof_buf : Nat) (td : lm3554_data σ) (buf : String) (ef : Nat)
        (b : Bus σ),
      onlyRegisterOps b (lm3554_strobe_err_show sizeof_buf td buf ef b).bus) ∧
    (∀ (σ : Type) (td : lm3554_data σ) (value ef : Nat) (b : Bus σ),
      onlyRegisterOps b (lm3554_flash_brightness_set td value ef b).bus) := by
  obtain ⟨mT, mF, mD, mC1, mC2⟩ := validRegs_mem
  refine ⟨?_, ?_, ?_, ?_, ?_, ?_⟩
  · intro σ td b
    rw [init_registers_bus]
    apply writeInOrder_valid
    intro p hp
    simp only [initSequence, List.mem_cons, List.mem_singleton, List.not_mem_nil,
      or_false] at hp
    rcases hp with rfl | rfl | rfl | rfl | rfl | rfl | rfl <;>
      simp [validRegs]
  · intro σ td buf val b
    cases buf with
    | none => exact onlyRegisterOps_refl b
    | some level =>
      have e1 : onlyRegisterOps b (torchStepRead td val b).2.2 :=
        read_reg_valid td _ _ b mT
      have e2 : onlyRegisterOps b (torchStepConfig td val b).bus :=
        onlyRegisterOps_trans e1 (write_reg_valid td _ _ _ mC2)
      have e3 : onlyRegisterOps b (torchStepWrite td level val b).bus :=
        onlyRegisterOps_trans e2 (write_reg_valid td _ _ _ mT)
      rw [torch_store_steps]
      repeat' split
      all_goals first | exact e1 | exact e2 | exact e3
  · intro σ td value val b
    have e1 : onlyRegisterOps b (torchStepRead td val b).2.2 :=
      read_reg_valid td _ _ b mT
    have e2 : onlyRegisterOps b (torchStepConfig td val b).bus :=
      onlyRegisterOps_trans e1 (write_reg_valid td _ _ _ mC2)
    have e3 : onlyRegisterOps b (torchStepWrite td value val b).bus :=
      onlyRegisterOps_trans e2 (write_reg_valid td _ _ _ mT)
    rw [torch_brightness_set_steps]
    repeat' split
    all_goals first | exact e1 | exact e2 | exact e3
  · intro σ td buf val sb b
    cases buf with
    | none => exact onlyRegisterOps_refl b
    | some level =>
      have e1 : onlyRegisterOps b (strobeStepReadConfig td val b).2.2 :=
        read_reg_valid td _ _ b mC1
      have e2 : onlyRegisterOps b (strobeStepTorchDefault td val b).bus :=
        onlyRegisterOps_trans e1 (write_reg_valid td _ _ _ mT)
      have e3 : onlyRegisterOps b (strobeStepReadFlash td val sb b).2.2 :=
        onlyRegisterOps_trans e2 (read_reg_valid td _ _ _ mF)
      have e4 : onlyRegisterOps b (strobeStepWriteFlash td level val sb b).bus :=
        onlyRegisterOps_trans e3 (write_reg_valid td _ _ _ mF)
      have e5 : onlyRegisterOps b (strobeStepWriteConfig td level val sb b).bus :=
        onlyRegisterOps_trans e4 (write_reg_valid td _ _ _ mC1)
      rw [strobe_store_steps]
      repeat' split
      all_goals first | exact e1 | exact e2 | exact e3 | exact e4 | exact e5
  · intro σ sizeof_buf td buf ef b
    have e1 : onlyRegisterOps b (errStepRead td ef b).2.2 :=
      read_reg_valid td _ _ b mD
    have e2 : onlyRegisterOps b (errStepClear td ef b).bus :=
      onlyRegisterOps_trans e1 (write_reg_valid td _ _ _ mD)
    rw [strobe_err_show_steps]
    repeat' split
    all_goals first | exact e1 | exact e2
  · intro σ td value ef b
    have e1 : onlyRegisterOps b (lm3554_read_reg td LM3554_FLAG_REG (some ef) b).2.2 :=
      read_reg_valid td _ _ b mD
    simp only [lm3554_flash_brightness_set]
    split <;> exact e1

/-- With the same initial content of the local `val`, the two torch entry points leave the
same bus, state and trace, whatever the transport does, and `lm3554_torch_brightness_set`
leaves the driver data as it was. -/
theorem torch_entry_points_same_val {σ : Type} (td : lm3554_data σ) (level v0 : Nat)
    (b : Bus σ) :
    (lm3554_torch_brightness_set td level v0 b).bus
      = (lm3554_torch_store td (some level) v0 b).bus ∧
    (lm3554_torch_brightness_set td level v0 b).data = td := by
  rw [torch_brightness_set_steps, torch_store_steps]
  constructor
  · repeat' split
    all_goals rfl
  · repeat' split
    all_goals rfl

/-- C18 (the code at the failing input): bound to the transport that reports zero bytes on
every call, the read of both torch entry points returns 0 without a byte having been stored,
so the byte sent to 0xA0 is computed from the initial content of the local `val`: with `0x00`
in `lm3554_torch_store` and `0x04` in `lm3554_torch_brightness_set`, level 32 sends the frame
`(0xA0, 0x0A)` in the first and `(0xA0, 0x0E)` in the second, and the two traces differ. -/
theorem C18_zero_count_entry_points_differ :
    (torchStepRead zeroData 0x00 ⟨(), []⟩).1 = 0 ∧
    (torchStepRead zeroData 0x00 ⟨(), []⟩).2.1 = some 0x00 ∧
    (torchStepRead zeroData 0x04 ⟨(), []⟩).2.1 = some 0x04 ∧
    BusOp.send [LM3554_TORCH_BRIGHTNESS, 0x0A] 2 0
      ∈ (lm3554_torch_store zeroData (some 32) 0x00 ⟨(), []⟩).bus.log ∧
    BusOp.send [LM3554_TORCH_BRIGHTNESS, 0x0E] 2 0
      ∈ (lm3554_torch_brightness_set zeroData 32 0x04 ⟨(), []⟩).bus.log ∧
    (lm3554_torch_brightness_set zeroData 32 0x04 ⟨(), []⟩).bus.log
      ≠ (lm3554_torch_store zeroData (some 32) 0x00 ⟨(), []⟩).bus.log := by
  decide

end LM3554
